import Mathlib

/-!
# Verification of the Wa-Tor tick engine

Shallow embedding of the Wa-Tor predator-prey simulation (`src/wa-tor/main.go`)
and proofs of the specified properties.

Modelling conventions:
* Go `int` fields that can be negative or are subject to Go's truncated
  `%` / `/` (creature `age`, `health`, the chronon index, the configured
  thresholds) become `Int`, with `Int.tmod` / `Int.tdiv` for Go's `%` / `/`.
  Grid coordinates are produced only by the scan loops and `adjacent`, and
  always lie in `[0, width) × [0, height)`, so they are `Nat`.
* The double-buffered grids `world` / `nextWorld` become total functions
  `coordinate → Option creature`; `nil` is `none`.
* Each worker goroutine owns a private `rand.Rand`; a random stream is a
  function `Nat → Nat` consulted at an increasing counter `k`, one draw per
  `r.Intn(4)` call (the code only uses the draw through `(d + i) % 4`, so an
  arbitrary natural faithfully models a draw from `Intn(4)`).
* The atomic `CompareAndSwapPointer` on a `nextWorld` slot is `tryClaim`:
  it installs the creature only if the slot is empty.  Since CAS is the only
  write primitive, any concurrent execution of the workers linearizes to a
  sequential order of the per-creature bursts; the tick model below runs the
  row slices sequentially and the worker-count theorems quantify over the
  slice decomposition and the per-worker random streams.
* In the shark branches the winning CAS installs a pointer to the local
  variable `cr`, and the subsequent breeding split `cr.health -= childEnergy`
  mutates the creature through that already-installed pointer; the model
  makes this visible by overwriting the just-claimed slot with the
  post-split parent (`setCell`).
-/

/-- Direction constants (`NORTH`, `SOUTH`, `EAST`, `WEST` in the source). -/
def NORTH : Nat := 0

/-- Direction constant `SOUTH`. -/
def SOUTH : Nat := 1

/-- Direction constant `EAST`. -/
def EAST : Nat := 2

/-- Direction constant `WEST`. -/
def WEST : Nat := 3

/-- `coordinate` represents a 2D coordinate on the grid. -/
structure coordinate where
  x : Nat
  y : Nat
deriving DecidableEq, Repr

/-- Creature species constant `FISH`. -/
def FISH : Nat := 0

/-- Creature species constant `SHARK`. -/
def SHARK : Nat := 1

/-- An RGBA color (the `asset` field only feeds the GUI). -/
structure RGBA where
  r : Nat
  g : Nat
  b : Nat
  a : Nat
deriving DecidableEq, Repr

/-- `fishcolor = color.RGBA{0, 255, 0, 0}`. -/
def fishcolor : RGBA := ⟨0, 255, 0, 0⟩

/-- `sharkcolor = color.RGBA{255, 0, 0, 0}`. -/
def sharkcolor : RGBA := ⟨255, 0, 0, 0⟩

/-- `creature` represents a biological entity (fish or shark). -/
structure creature where
  age : Int
  health : Int
  species : Nat
  asset : RGBA
  chronon : Int
deriving DecidableEq, Repr

/-- One buffer of the double-buffered grid: `nil` cells are `none`. -/
def World : Type := coordinate → Option creature

/-- The all-`nil` grid buffer. -/
def emptyWorld : World := fun _ => none

/-- Writing one cell of a buffer (a plain pointer store). -/
def setCell (w : World) (p : coordinate) (cr : creature) : World :=
  fun q => if q = p then some cr else w q

/-- The claim primitive: `atomic.CompareAndSwapPointer(&nextWorld[x][y], nil, &cr)`.
Succeeds (installing `cr`) exactly when the slot is still empty. -/
def tryClaim (nw : World) (p : coordinate) (cr : creature) : Bool × World :=
  match nw p with
  | none => (true, setCell nw p cr)
  | some _ => (false, nw)

/-- `adjacent` calculates adjacent coordinates wrapping around the toroidal
world, returning the north, south, east and west neighbors of `(x, y)`. -/
structure neighbors where
  north : coordinate
  south : coordinate
  east : coordinate
  west : coordinate
deriving DecidableEq, Repr

/-- Direct translation of `adjacent` (main.go lines 309-337), with the world
size passed explicitly instead of read from the `*wwidth` / `*wheight`
globals. -/
def adjacent (wwidth wheight x y : Nat) : neighbors :=
  let ny := if y = 0 then wheight - 1 else y - 1
  let sy := if y = wheight - 1 then 0 else y + 1
  let ex := if x = wwidth - 1 then 0 else x + 1
  let wx := if x = 0 then wwidth - 1 else x - 1
  { north := ⟨x, ny⟩, south := ⟨x, sy⟩, east := ⟨ex, y⟩, west := ⟨wx, y⟩ }

/-- The `switch (d + i) % 4` dispatch shared by all three direction-trial
loops: selects a neighbor from the already-computed four. -/
def pickDir (ns : neighbors) (j : Nat) : coordinate :=
  match j with
  | 0 => ns.north
  | 1 => ns.south
  | 2 => ns.east
  | _ => ns.west

/-- The fish movement loop (main.go lines 194-220): up to `fuel` attempts
(started with `fuel = 4`, attempt index `i`), each drawing `d := r.Intn(4)`
at counter `k` and trying direction `(d + i) % 4`.  If the target is empty in
the current buffer, a claim of the target in the next buffer is attempted;
on success, if the (already incremented) age is a positive multiple of
`fBreed`, a baby fish is best-effort claimed into the origin `(x, y)`.
Returns the next buffer, the advanced draw counter, the `moved` flag, and
the number of successful breeding placements (0 or 1). -/
def fishMoveLoop (wwidth wheight : Nat) (fBreed c : Int) (rng : Nat → Nat)
    (w : World) (x y : Nat) (cr : creature) :
    Nat → Nat → World → Nat → World × Nat × Bool × Nat
  | 0, _, nw, k => (nw, k, false, 0)
  | fuel + 1, i, nw, k =>
    let ns := adjacent wwidth wheight x y
    let d := rng k
    let tgt := pickDir ns ((d + i) % 4)
    match w tgt with
    | none =>
      match tryClaim nw tgt cr with
      | (true, nw1) =>
        if cr.age > 0 ∧ cr.age.tmod fBreed = 0 then
          let babyFish : creature :=
            { age := 0, health := 0, species := FISH, asset := fishcolor, chronon := c }
          match tryClaim nw1 ⟨x, y⟩ babyFish with
          | (ok, nw2) => (nw2, k + 1, true, if ok then 1 else 0)
        else (nw1, k + 1, true, 0)
      | (false, nw1) =>
        fishMoveLoop wwidth wheight fBreed c rng w x y cr fuel (i + 1) nw1 (k + 1)
    | some _ =>
      fishMoveLoop wwidth wheight fBreed c rng w x y cr fuel (i + 1) nw (k + 1)

/-- The shark hunting loop (main.go lines 234-263).  On sighting a fish in
the current buffer the shark's energy is reset to `starve` *before* the
claim is attempted, and the (possibly fed) creature is threaded through
failed attempts.  On a winning claim, breeding splits the parent's energy;
the split is visible through the already-installed pointer, modelled by
`setCell` on the just-claimed slot.  Returns the next buffer, the draw
counter, the `moved` flag, the breeding-placement count, and the creature
as mutated by the loop. -/
def sharkHuntLoop (wwidth wheight : Nat) (sBreed starve c : Int) (rng : Nat → Nat)
    (w : World) (x y : Nat) :
    Nat → Nat → creature → World → Nat → World × Nat × Bool × Nat × creature
  | 0, _, cr, nw, k => (nw, k, false, 0, cr)
  | fuel + 1, i, cr, nw, k =>
    let ns := adjacent wwidth wheight x y
    let d := rng k
    let tgt := pickDir ns ((d + i) % 4)
    match w tgt with
    | some prey =>
      if prey.species = FISH then
        let cr1 := { cr with health := starve }
        match tryClaim nw tgt cr1 with
        | (true, nw1) =>
          if cr1.age > 0 ∧ cr1.age.tmod sBreed = 0 then
            let childEnergy := cr1.health.tdiv 2
            let cr2 := { cr1 with health := cr1.health - childEnergy }
            let nw2 := setCell nw1 tgt cr2
            let babyShark : creature :=
              { age := 0, health := childEnergy, species := SHARK,
                asset := sharkcolor, chronon := c }
            match tryClaim nw2 ⟨x, y⟩ babyShark with
            | (ok, nw3) => (nw3, k + 1, true, (if ok then 1 else 0), cr2)
          else (nw1, k + 1, true, 0, cr1)
        | (false, nw1) =>
          sharkHuntLoop wwidth wheight sBreed starve c rng w x y fuel (i + 1) cr1 nw1 (k + 1)
      else
        sharkHuntLoop wwidth wheight sBreed starve c rng w x y fuel (i + 1) cr nw (k + 1)
    | none =>
      sharkHuntLoop wwidth wheight sBreed starve c rng w x y fuel (i + 1) cr nw (k + 1)

/-- The shark movement loop (main.go lines 270-297): like the fish loop but
with the shark's energy-splitting breeding logic. -/
def sharkMoveLoop (wwidth wheight : Nat) (sBreed c : Int) (rng : Nat → Nat)
    (w : World) (x y : Nat) (cr : creature) :
    Nat → Nat → World → Nat → World × Nat × Bool × Nat
  | 0, _, nw, k => (nw, k, false, 0)
  | fuel + 1, i, nw, k =>
    let ns := adjacent wwidth wheight x y
    let d := rng k
    let tgt := pickDir ns ((d + i) % 4)
    match w tgt with
    | none =>
      match tryClaim nw tgt cr with
      | (true, nw1) =>
        if cr.age > 0 ∧ cr.age.tmod sBreed = 0 then
          let childEnergy := cr.health.tdiv 2
          let cr2 := { cr with health := cr.health - childEnergy }
          let nw2 := setCell nw1 tgt cr2
          let babyShark : creature :=
            { age := 0, health := childEnergy, species := SHARK,
              asset := sharkcolor, chronon := c }
          match tryClaim nw2 ⟨x, y⟩ babyShark with
          | (ok, nw3) => (nw3, k + 1, true, if ok then 1 else 0)
        else (nw1, k + 1, true, 0)
      | (false, nw1) =>
        sharkMoveLoop wwidth wheight sBreed c rng w x y cr fuel (i + 1) nw1 (k + 1)
    | some _ =>
      sharkMoveLoop wwidth wheight sBreed c rng w x y cr fuel (i + 1) nw (k + 1)

/-- The fish branch of the per-creature state machine (main.go lines
192-224): the movement loop followed by, if no move succeeded, the
stay-in-place claim of the origin cell (whose boolean result the source
discards). -/
def fishStep (wwidth wheight : Nat) (fBreed c : Int) (rng : Nat → Nat)
    (w : World) (x y : Nat) (cr : creature) (nw : World) (k : Nat) :
    World × Nat × Nat :=
  match fishMoveLoop wwidth wheight fBreed c rng w x y cr 4 0 nw k with
  | (nw1, k1, moved, b) =>
    if moved then (nw1, k1, b)
    else ((tryClaim nw1 ⟨x, y⟩ cr).2, k1, b)

/-- The shark branch after the starvation check (main.go lines 233-301):
the hunting loop, then — if no hunt claim succeeded — the movement loop
with the possibly-fed creature, then the stay-in-place claim (whose
boolean result the source discards). -/
def sharkStep (wwidth wheight : Nat) (sBreed starve c : Int) (rng : Nat → Nat)
    (w : World) (x y : Nat) (cr1 : creature) (nw : World) (k : Nat) :
    World × Nat × Nat :=
  match sharkHuntLoop wwidth wheight sBreed starve c rng w x y 4 0 cr1 nw k with
  | (nw1, k1, moved, b1, cr2) =>
    if moved then (nw1, k1, b1)
    else
      match sharkMoveLoop wwidth wheight sBreed c rng w x y cr2 4 0 nw1 k1 with
      | (nw2, k2, moved2, b2) =>
        if moved2 then (nw2, k2, b1 + b2)
        else ((tryClaim nw2 ⟨x, y⟩ cr2).2, k2, b1 + b2)

/-- Processing of the single current-buffer cell `(x, y)` (the body of the
`for x` loop of `updateSlice`, main.go lines 180-302): skip empty cells,
copy the creature with `age++` and `chronon := c`, then run the per-species
state machine (fish: move / stay; shark: energy decrement and starvation
death, then hunt / move / stay).  A species tag other than `FISH` or
`SHARK` falls through Go's `switch` without placing anything.  Returns the
next buffer, the advanced draw counter, and the number of successful
breeding placements made on behalf of this creature. -/
def updateCell (wwidth wheight : Nat) (fBreed sBreed starve c : Int)
    (rng : Nat → Nat) (w : World) (x y : Nat) (nw : World) (k : Nat) :
    World × Nat × Nat :=
  match w ⟨x, y⟩ with
  | none => (nw, k, 0)
  | some cr0 =>
    let cr := { cr0 with age := cr0.age + 1, chronon := c }
    match cr.species with
    | 0 => fishStep wwidth wheight fBreed c rng w x y cr nw k
    | 1 =>
      let cr1 := { cr with health := cr.health - 1 }
      if cr1.health ≤ 0 then (nw, k, 0)
      else sharkStep wwidth wheight sBreed starve c rng w x y cr1 nw k
    | _ => (nw, k, 0)

/-- One row of a worker's scan (the `for x := 0; x < *wwidth; x++` loop),
threading the next buffer, the draw counter, and the accumulated count of
successful breeding placements. -/
def updateRow (wwidth wheight : Nat) (fBreed sBreed starve c : Int)
    (rng : Nat → Nat) (w : World) (y : Nat) (st : World × Nat × Nat) :
    World × Nat × Nat :=
  (List.range wwidth).foldl
    (fun st x =>
      match updateCell wwidth wheight fBreed sBreed starve c rng w x y st.1 st.2.1 with
      | (nw, k, b) => (nw, k, st.2.2 + b))
    st

/-- A worker's whole scan, `updateSlice(c, startY, endY, …)` (main.go lines
161-305): process rows `startY ≤ y < endY` of the frozen current buffer,
writing into the shared next buffer only through `tryClaim`.  Each worker
owns the private stream `rng` with its counter starting at `st.2.1`. -/
def updateSlice (wwidth wheight : Nat) (fBreed sBreed starve c : Int)
    (rng : Nat → Nat) (w : World) (startY endY : Nat) (st : World × Nat × Nat) :
    World × Nat × Nat :=
  (List.range' startY (endY - startY)).foldl
    (fun st y => updateRow wwidth wheight fBreed sBreed starve c rng w y st)
    st

/-- The worker-count normalization of `Chronon` (main.go lines 119-127):
a requested count `≤ 0` becomes 1, a count exceeding the grid height
becomes the height. -/
def coerceWorkers (nThreads : Int) (wheight : Nat) : Nat :=
  let n : Int := if nThreads ≤ 0 then 1 else nThreads
  let n := if n > (wheight : Int) then (wheight : Int) else n
  n.toNat

/-- The row partition computed by `Chronon` (main.go lines 129-138): worker
`i` receives rows `[i * rowsPerGoroutine, (i+1) * rowsPerGoroutine)`, except
that the last worker's range is extended to the full height. -/
def sliceBounds (nThreads : Int) (wheight : Nat) : List (Nat × Nat) :=
  let n := coerceWorkers nThreads wheight
  let rowsPerGoroutine := wheight / n
  (List.range n).map
    (fun i => (i * rowsPerGoroutine,
               if i = n - 1 then wheight else i * rowsPerGoroutine + rowsPerGoroutine))

/-- The worker-launch loop of `Chronon` (main.go lines 132-144, here run
sequentially in worker order over the worker indices `is`): worker `i`
scans rows `[i*rowsPerGoroutine, (i+1)*rowsPerGoroutine)` (the last worker
up to the full height), with its private stream `workers i` and draw
counter restarting at 0; the accumulator carries the shared next buffer and
the running total of successful breeding placements. -/
def runWorkers (wwidth wheight : Nat) (fBreed sBreed starve c : Int)
    (workers : Nat → Nat → Nat) (world : World) (n rowsPerGoroutine : Nat)
    (is : List Nat) (acc : World × Nat) : World × Nat :=
  is.foldl
    (fun acc i =>
      let startY := i * rowsPerGoroutine
      let endY := if i = n - 1 then wheight else startY + rowsPerGoroutine
      match updateSlice wwidth wheight fBreed sBreed starve c (workers i)
          world startY endY (acc.1, 0, acc.2) with
      | (nw, _, b) => (nw, b))
    acc

/-- `Chronon` (main.go lines 116-154): one simulation step.  Clamps the
worker count, partitions the rows, runs every worker's `updateSlice` (here
sequentially, in worker order — one linearization of the CAS-racing
execution; `workers i` is worker `i`'s private random stream, its counter
restarting at 0), then swaps the double buffers and clears every cell of
the new write buffer.  Returns (new current buffer, new write buffer, total
number of successful breeding placements this tick). -/
def Chronon (wwidth wheight : Nat) (fBreed sBreed starve : Int)
    (nThreads : Int) (c : Int) (workers : Nat → Nat → Nat)
    (world nextWorld : World) : World × World × Nat :=
  let n := coerceWorkers nThreads wheight
  let rowsPerGoroutine := wheight / n
  let run := runWorkers wwidth wheight fBreed sBreed starve c workers world
    n rowsPerGoroutine (List.range n) (nextWorld, 0)
  (run.1, fun _ => none, run.2)

/-- Occupancy indicator of one cell. -/
def cellCount (w : World) (x y : Nat) : Nat :=
  if (w ⟨x, y⟩).isSome then 1 else 0

/-- Number of occupied cells in row `y`. -/
def rowCount (wwidth : Nat) (w : World) (y : Nat) : Nat :=
  ((List.range wwidth).map (fun x => cellCount w x y)).sum

/-- Number of occupied cells of the whole grid. -/
def countOccupied (wwidth wheight : Nat) (w : World) : Nat :=
  ((List.range wheight).map (fun y => rowCount wwidth w y)).sum

/-- The placement retry loop of `initWator` (main.go lines 359-375 and
379-396): keep drawing positions `x := r.Intn(wwidth-1)`, `y :=
r.Intn(wheight-1)` until an empty cell is found, or stop without placing
when `pop` has reached the full grid capacity.  `pos` is the position
stream (`pos k % (wwidth-1)` models `r.Intn(wwidth-1)`; Go additionally
panics when `wwidth-1 ≤ 0`, i.e. for a width or height of 1, which is kept
out of this model's theorems), `fuel` bounds the unbounded `for` loop:
`none` means the loop ran `fuel` iterations without returning. -/
def placeLoop (wwidth wheight : Nat) (cr : creature) (pos : Nat → Nat) :
    Nat → World → Nat → Nat → Option (World × Nat × Nat)
  | 0, _, _, _ => none
  | fuel + 1, wm, pop, k =>
    if pop = wwidth * wheight then some (wm, pop, k)
    else
      let x := pos k % (wwidth - 1)
      let y := pos (k + 1) % (wheight - 1)
      match wm ⟨x, y⟩ with
      | none => some (setCell wm ⟨x, y⟩ cr, pop + 1, k + 2)
      | some _ => placeLoop wwidth wheight cr pos fuel wm pop (k + 2)

/-- The fish-placement phase of `initWator` (main.go lines 358-376): place
`n` fish, each with age `rand.Intn(fBreed)` (modelled by the stream `ageS`),
via `placeLoop`.  `none` propagates a placement loop that never returned
within `fuel` iterations. -/
def initFish (wwidth wheight fBreed : Nat) (ageS pos : Nat → Nat) :
    Nat → Nat → World → Nat → Nat → Option (World × Nat × Nat)
  | 0, _, wm, pop, k => some (wm, pop, k)
  | n + 1, fuel, wm, pop, k =>
    let cr : creature :=
      { age := Int.ofNat (ageS n % fBreed), health := 0, species := FISH,
        asset := fishcolor, chronon := 0 }
    match placeLoop wwidth wheight cr pos fuel wm pop k with
    | none => none
    | some (wm1, pop1, k1) => initFish wwidth wheight fBreed ageS pos n fuel wm1 pop1 k1

/-! ## Basic facts about the claim primitive -/

theorem setCell_self (w : World) (p : coordinate) (cr : creature) :
    setCell w p cr p = some cr := by
  simp [setCell]

theorem setCell_other (w : World) (p q : coordinate) (cr : creature) (h : q ≠ p) :
    setCell w p cr q = w q := by
  simp [setCell, h]

theorem tryClaim_of_none (nw : World) (p : coordinate) (cr : creature)
    (h : nw p = none) : tryClaim nw p cr = (true, setCell nw p cr) := by
  simp [tryClaim, h]

theorem tryClaim_of_some (nw : World) (p : coordinate) (cr b : creature)
    (h : nw p = some b) : tryClaim nw p cr = (false, nw) := by
  simp [tryClaim, h]

/-- A successful claim presupposes the slot was empty. -/
theorem tryClaim_success_empty (nw : World) (p : coordinate) (cr : creature)
    (h : (tryClaim nw p cr).1 = true) : nw p = none := by
  unfold tryClaim at h
  cases hnw : nw p
  · rfl
  · rw [hnw] at h; simp at h

/-- First claim wins: a claim never modifies an already-occupied slot. -/
theorem tryClaim_preserves (nw : World) (p q : coordinate) (cr b : creature)
    (h : nw q = some b) : (tryClaim nw p cr).2 q = some b := by
  unfold tryClaim
  cases hnw : nw p
  · by_cases hqp : q = p
    · subst hqp; rw [hnw] at h; cases h
    · simpa [setCell, hqp] using h
  · simpa using h

/-! ## C9: toroidal adjacency -/

/-- The decrement-with-wraparound branch of `adjacent` agrees with the
mathematical `(v - 1) mod m`. -/
theorem wrapDec (m v : Nat) (hv : v < m) :
    ((if v = 0 then m - 1 else v - 1 : Nat) : Int) = ((v : Int) - 1) % (m : Int) := by
  by_cases h0 : v = 0
  · subst h0
    rw [if_pos rfl]
    have h2 : ((m:Int) - 1) % (m:Int) = ((0:Int) - 1) % (m:Int) := by
      conv_lhs => rw [show (m:Int) - 1 = (0 - 1) + (m:Int) * 1 by ring]
      apply Int.add_mul_emod_self_left
    simp only [Nat.cast_zero]
    rw [← h2, Int.emod_eq_of_lt (by omega) (by omega)]
    omega
  · rw [if_neg h0, Int.emod_eq_of_lt (by omega) (by omega)]
    omega

/-- The increment-with-wraparound branch of `adjacent` agrees with the
mathematical `(v + 1) mod m`. -/
theorem wrapInc (m v : Nat) (hv : v < m) :
    ((if v = m - 1 then 0 else v + 1 : Nat) : Int) = ((v : Int) + 1) % (m : Int) := by
  by_cases h0 : v = m - 1
  · subst h0
    rw [if_pos rfl, show ((m:Nat) - 1 : Nat) + (1:Int) = (m:Int) by omega, Int.emod_self]
    rfl
  · rw [if_neg h0, Int.emod_eq_of_lt (by omega) (by omega)]
    omega

/-- C9: for every in-range position `(x, y)` on a `W × H` torus, `adjacent`
returns north `(x, (y-1) mod H)`, south `(x, (y+1) mod H)`, east
`((x+1) mod W, y)`, west `((x-1) mod W, y)`; applying a direction and then
its opposite returns the original position; and `adjacent (0, 0)` yields
north `(0, H-1)` and west `(W-1, 0)`. -/
theorem c9_adjacent_toroidal (W H x y : Nat) (hx : x < W) (hy : y < H) :
    (((adjacent W H x y).north.x = x ∧
      ((adjacent W H x y).north.y : Int) = ((y : Int) - 1) % (H : Int)) ∧
     ((adjacent W H x y).south.x = x ∧
      ((adjacent W H x y).south.y : Int) = ((y : Int) + 1) % (H : Int)) ∧
     (((adjacent W H x y).east.x : Int) = ((x : Int) + 1) % (W : Int) ∧
      (adjacent W H x y).east.y = y) ∧
     (((adjacent W H x y).west.x : Int) = ((x : Int) - 1) % (W : Int) ∧
      (adjacent W H x y).west.y = y)) ∧
    ((adjacent W H (adjacent W H x y).north.x (adjacent W H x y).north.y).south = ⟨x, y⟩ ∧
     (adjacent W H (adjacent W H x y).south.x (adjacent W H x y).south.y).north = ⟨x, y⟩ ∧
     (adjacent W H (adjacent W H x y).east.x (adjacent W H x y).east.y).west = ⟨x, y⟩ ∧
     (adjacent W H (adjacent W H x y).west.x (adjacent W H x y).west.y).east = ⟨x, y⟩) ∧
    ((adjacent W H 0 0).north = ⟨0, H - 1⟩ ∧ (adjacent W H 0 0).west = ⟨W - 1, 0⟩) := by
  refine ⟨⟨⟨rfl, ?_⟩, ⟨rfl, ?_⟩, ⟨?_, rfl⟩, ⟨?_, rfl⟩⟩, ⟨?_, ?_, ?_, ?_⟩, ?_, ?_⟩
  · simpa [adjacent] using wrapDec H y hy
  · simpa [adjacent] using wrapInc H y hy
  · simpa [adjacent] using wrapInc W x hx
  · simpa [adjacent] using wrapDec W x hx
  · simp only [adjacent, coordinate.mk.injEq]
    refine ⟨trivial, ?_⟩
    split_ifs <;> omega
  · simp only [adjacent, coordinate.mk.injEq]
    refine ⟨trivial, ?_⟩
    split_ifs <;> first | omega | contradiction
  · simp only [adjacent, coordinate.mk.injEq]
    refine ⟨?_, trivial⟩
    split_ifs <;> first | omega | contradiction
  · simp only [adjacent, coordinate.mk.injEq]
    refine ⟨?_, trivial⟩
    split_ifs <;> omega
  · simp [adjacent]
  · simp [adjacent]

/-- Witness for C9 at the concrete position `(1, 0)` on a `3 × 2` torus. -/
theorem c9_adjacent_toroidal_witness :
    (1 < 3 ∧ 0 < 2) ∧
    ((((adjacent 3 2 1 0).north.x = 1 ∧
       ((adjacent 3 2 1 0).north.y : Int) = (((0:Nat) : Int) - 1) % ((2:Nat) : Int)) ∧
      ((adjacent 3 2 1 0).south.x = 1 ∧
       ((adjacent 3 2 1 0).south.y : Int) = (((0:Nat) : Int) + 1) % ((2:Nat) : Int)) ∧
      (((adjacent 3 2 1 0).east.x : Int) = (((1:Nat) : Int) + 1) % ((3:Nat) : Int) ∧
       (adjacent 3 2 1 0).east.y = 0) ∧
      (((adjacent 3 2 1 0).west.x : Int) = (((1:Nat) : Int) - 1) % ((3:Nat) : Int) ∧
       (adjacent 3 2 1 0).west.y = 0)) ∧
     ((adjacent 3 2 (adjacent 3 2 1 0).north.x (adjacent 3 2 1 0).north.y).south = ⟨1, 0⟩ ∧
      (adjacent 3 2 (adjacent 3 2 1 0).south.x (adjacent 3 2 1 0).south.y).north = ⟨1, 0⟩ ∧
      (adjacent 3 2 (adjacent 3 2 1 0).east.x (adjacent 3 2 1 0).east.y).west = ⟨1, 0⟩ ∧
      (adjacent 3 2 (adjacent 3 2 1 0).west.x (adjacent 3 2 1 0).west.y).east = ⟨1, 0⟩) ∧
     ((adjacent 3 2 0 0).north = ⟨0, 2 - 1⟩ ∧ (adjacent 3 2 0 0).west = ⟨3 - 1, 0⟩)) :=
  ⟨⟨by decide, by decide⟩, c9_adjacent_toroidal 3 2 1 0 (by decide) (by decide)⟩

/-! ## C1: occupied next-buffer cells are never rewritten -/

/-- The fish movement loop never rewrites an occupied next-buffer cell. -/
theorem fishMoveLoop_preserves (wwidth wheight : Nat) (fBreed c : Int)
    (rng : Nat → Nat) (w : World) (x y : Nat) (cr : creature) :
    ∀ (fuel i : Nat) (nw : World) (k : Nat) (p : coordinate) (b : creature),
      nw p = some b →
      (fishMoveLoop wwidth wheight fBreed c rng w x y cr fuel i nw k).1 p = some b := by
  intro fuel
  induction fuel with
  | zero => intro i nw k p b h; simpa [fishMoveLoop] using h
  | succ n ih =>
    intro i nw k p b h
    simp only [fishMoveLoop]
    cases hw : w (pickDir (adjacent wwidth wheight x y) ((rng k + i) % 4)) with
    | some prey => exact ih (i + 1) nw (k + 1) p b h
    | none =>
      have hcl := tryClaim_preserves nw
        (pickDir (adjacent wwidth wheight x y) ((rng k + i) % 4)) p cr b h
      cases hc : tryClaim nw (pickDir (adjacent wwidth wheight x y) ((rng k + i) % 4)) cr with
      | mk ok nw1 =>
        rw [hc] at hcl
        cases ok with
        | false => exact ih (i + 1) nw1 (k + 1) p b hcl
        | true =>
          dsimp only
          by_cases hbr : cr.age > 0 ∧ cr.age.tmod fBreed = 0
          · rw [if_pos hbr]
            have hcl2 := tryClaim_preserves nw1 ⟨x, y⟩ p
              { age := 0, health := 0, species := FISH, asset := fishcolor, chronon := c } b hcl
            cases hc2 : tryClaim nw1 ⟨x, y⟩
                { age := 0, health := 0, species := FISH, asset := fishcolor, chronon := c } with
            | mk ok2 nw2 =>
              rw [hc2] at hcl2
              simpa using hcl2
          · rw [if_neg hbr]
            simpa using hcl

/-- The shark hunting loop never rewrites an occupied next-buffer cell. -/
theorem sharkHuntLoop_preserves (wwidth wheight : Nat) (sBreed starve c : Int)
    (rng : Nat → Nat) (w : World) (x y : Nat) :
    ∀ (fuel i : Nat) (cr : creature) (nw : World) (k : Nat) (p : coordinate) (b : creature),
      nw p = some b →
      (sharkHuntLoop wwidth wheight sBreed starve c rng w x y fuel i cr nw k).1 p = some b := by
  intro fuel
  induction fuel with
  | zero => intro i cr nw k p b h; simpa [sharkHuntLoop] using h
  | succ n ih =>
    intro i cr nw k p b h
    simp only [sharkHuntLoop]
    cases hw : w (pickDir (adjacent wwidth wheight x y) ((rng k + i) % 4)) with
    | none => exact ih (i + 1) cr nw (k + 1) p b h
    | some prey =>
      dsimp only
      by_cases hsp : prey.species = FISH
      · rw [if_pos hsp]
        have hcl := tryClaim_preserves nw
          (pickDir (adjacent wwidth wheight x y) ((rng k + i) % 4)) p
          { cr with health := starve } b h
        cases hc : tryClaim nw (pickDir (adjacent wwidth wheight x y) ((rng k + i) % 4))
            { cr with health := starve } with
        | mk ok nw1 =>
          rw [hc] at hcl
          cases ok with
          | false => exact ih (i + 1) { cr with health := starve } nw1 (k + 1) p b hcl
          | true =>
            dsimp only
            have hempty : nw (pickDir (adjacent wwidth wheight x y) ((rng k + i) % 4)) = none := by
              apply tryClaim_success_empty nw _ { cr with health := starve }
              rw [hc]
            have hne : p ≠ pickDir (adjacent wwidth wheight x y) ((rng k + i) % 4) := by
              intro hq; rw [hq, hempty] at h; cases h
            by_cases hbr : cr.age > 0 ∧ cr.age.tmod sBreed = 0
            · rw [if_pos hbr]
              have hov : setCell nw1 (pickDir (adjacent wwidth wheight x y) ((rng k + i) % 4))
                  { cr with health := starve - starve.tdiv 2 } p = some b := by
                rw [setCell_other _ _ _ _ hne]; exact hcl
              have hcl2 := tryClaim_preserves
                (setCell nw1 (pickDir (adjacent wwidth wheight x y) ((rng k + i) % 4))
                  { cr with health := starve - starve.tdiv 2 }) ⟨x, y⟩ p
                { age := 0, health := starve.tdiv 2, species := SHARK,
                  asset := sharkcolor, chronon := c } b hov
              cases hc2 : tryClaim
                  (setCell nw1 (pickDir (adjacent wwidth wheight x y) ((rng k + i) % 4))
                    { cr with health := starve - starve.tdiv 2 }) ⟨x, y⟩
                  { age := 0, health := starve.tdiv 2, species := SHARK,
                    asset := sharkcolor, chronon := c } with
              | mk ok2 nw3 =>
                rw [hc2] at hcl2
                simpa using hcl2
            · rw [if_neg hbr]
              simpa using hcl
      · rw [if_neg hsp]
        exact ih (i + 1) cr nw (k + 1) p b h

/-- The shark movement loop never rewrites an occupied next-buffer cell. -/
theorem sharkMoveLoop_preserves (wwidth wheight : Nat) (sBreed c : Int)
    (rng : Nat → Nat) (w : World) (x y : Nat) (cr : creature) :
    ∀ (fuel i : Nat) (nw : World) (k : Nat) (p : coordinate) (b : creature),
      nw p = some b →
      (sharkMoveLoop wwidth wheight sBreed c rng w x y cr fuel i nw k).1 p = some b := by
  intro fuel
  induction fuel with
  | zero => intro i nw k p b h; simpa [sharkMoveLoop] using h
  | succ n ih =>
    intro i nw k p b h
    simp only [sharkMoveLoop]
    cases hw : w (pickDir (adjacent wwidth wheight x y) ((rng k + i) % 4)) with
    | some prey => exact ih (i + 1) nw (k + 1) p b h
    | none =>
      have hcl := tryClaim_preserves nw
        (pickDir (adjacent wwidth wheight x y) ((rng k + i) % 4)) p cr b h
      cases hc : tryClaim nw (pickDir (adjacent wwidth wheight x y) ((rng k + i) % 4)) cr with
      | mk ok nw1 =>
        rw [hc] at hcl
        cases ok with
        | false => exact ih (i + 1) nw1 (k + 1) p b hcl
        | true =>
          dsimp only
          have hempty : nw (pickDir (adjacent wwidth wheight x y) ((rng k + i) % 4)) = none := by
            apply tryClaim_success_empty nw _ cr
            rw [hc]
          have hne : p ≠ pickDir (adjacent wwidth wheight x y) ((rng k + i) % 4) := by
            intro hq; rw [hq, hempty] at h; cases h
          by_cases hbr : cr.age > 0 ∧ cr.age.tmod sBreed = 0
          · rw [if_pos hbr]
            have hov : setCell nw1 (pickDir (adjacent wwidth wheight x y) ((rng k + i) % 4))
                { cr with health := cr.health - cr.health.tdiv 2 } p = some b := by
              rw [setCell_other _ _ _ _ hne]; exact hcl
            have hcl2 := tryClaim_preserves
              (setCell nw1 (pickDir (adjacent wwidth wheight x y) ((rng k + i) % 4))
                { cr with health := cr.health - cr.health.tdiv 2 }) ⟨x, y⟩ p
              { age := 0, health := cr.health.tdiv 2, species := SHARK,
                asset := sharkcolor, chronon := c } b hov
            cases hc2 : tryClaim
                (setCell nw1 (pickDir (adjacent wwidth wheight x y) ((rng k + i) % 4))
                  { cr with health := cr.health - cr.health.tdiv 2 }) ⟨x, y⟩
                { age := 0, health := cr.health.tdiv 2, species := SHARK,
                  asset := sharkcolor, chronon := c } with
            | mk ok2 nw3 =>
              rw [hc2] at hcl2
              simpa using hcl2
          · rw [if_neg hbr]
            simpa using hcl

/-- The fish branch never rewrites an occupied next-buffer cell. -/
theorem fishStep_preserves (wwidth wheight : Nat) (fBreed c : Int)
    (rng : Nat → Nat) (w : World) (x y : Nat) (cr : creature) (nw : World)
    (k : Nat) (p : coordinate) (b : creature) (h : nw p = some b) :
    (fishStep wwidth wheight fBreed c rng w x y cr nw k).1 p = some b := by
  unfold fishStep
  rcases hf : fishMoveLoop wwidth wheight fBreed c rng w x y cr 4 0 nw k
    with ⟨nw1, k1, moved, bb⟩
  have h1 : nw1 p = some b := by
    have := fishMoveLoop_preserves wwidth wheight fBreed c rng w x y cr 4 0 nw k p b h
    rw [hf] at this
    exact this
  cases moved with
  | true => simpa using h1
  | false => simpa using tryClaim_preserves _ _ _ _ _ h1

/-- The shark branch never rewrites an occupied next-buffer cell. -/
theorem sharkStep_preserves (wwidth wheight : Nat) (sBreed starve c : Int)
    (rng : Nat → Nat) (w : World) (x y : Nat) (cr1 : creature) (nw : World)
    (k : Nat) (p : coordinate) (b : creature) (h : nw p = some b) :
    (sharkStep wwidth wheight sBreed starve c rng w x y cr1 nw k).1 p = some b := by
  unfold sharkStep
  rcases hh : sharkHuntLoop wwidth wheight sBreed starve c rng w x y 4 0 cr1 nw k
    with ⟨nw1, k1, moved, b1, cr2⟩
  have h1 : nw1 p = some b := by
    have := sharkHuntLoop_preserves wwidth wheight sBreed starve c rng w x y 4 0 cr1 nw k p b h
    rw [hh] at this
    exact this
  cases moved with
  | true => simpa using h1
  | false =>
    dsimp only
    rcases hm : sharkMoveLoop wwidth wheight sBreed c rng w x y cr2 4 0 nw1 k1
      with ⟨nw2, k2, moved2, b2⟩
    have h2 : nw2 p = some b := by
      have := sharkMoveLoop_preserves wwidth wheight sBreed c rng w x y cr2 4 0 nw1 k1 p b h1
      rw [hm] at this
      exact this
    cases moved2 with
    | true => simpa using h2
    | false => simpa using tryClaim_preserves _ _ _ _ _ h2

/-- Processing one source cell never rewrites an occupied next-buffer cell. -/
theorem updateCell_preserves (wwidth wheight : Nat) (fBreed sBreed starve c : Int)
    (rng : Nat → Nat) (w : World) (x y : Nat) (nw : World) (k : Nat)
    (p : coordinate) (b : creature) (h : nw p = some b) :
    (updateCell wwidth wheight fBreed sBreed starve c rng w x y nw k).1 p = some b := by
  unfold updateCell
  cases hw : w ⟨x, y⟩ with
  | none => simpa using h
  | some cr0 =>
    dsimp only
    cases hsp : cr0.species with
    | zero => exact fishStep_preserves wwidth wheight fBreed c rng w x y _ nw k p b h
    | succ m =>
      cases m with
      | zero =>
        dsimp only
        by_cases hdead : cr0.health - 1 ≤ 0
        · rw [if_pos hdead]
          simpa using h
        · rw [if_neg hdead]
          exact sharkStep_preserves wwidth wheight sBreed starve c rng w x y _ nw k p b h
      | succ m2 => simpa using h

/-- One scanned row never rewrites an occupied next-buffer cell. -/
theorem updateRow_preserves (wwidth wheight : Nat) (fBreed sBreed starve c : Int)
    (rng : Nat → Nat) (w : World) (y : Nat) :
    ∀ (acc : World × Nat × Nat) (p : coordinate) (b : creature),
      acc.1 p = some b →
      (updateRow wwidth wheight fBreed sBreed starve c rng w y acc).1 p = some b := by
  unfold updateRow
  generalize List.range wwidth = xs
  induction xs with
  | nil => intro acc p b h; simpa using h
  | cons a as ih =>
    intro acc p b h
    rw [List.foldl_cons]
    apply ih
    dsimp only
    rcases hu : updateCell wwidth wheight fBreed sBreed starve c rng w a y acc.1 acc.2.1
      with ⟨nw, k, bb⟩
    have := updateCell_preserves wwidth wheight fBreed sBreed starve c rng w a y
      acc.1 acc.2.1 p b h
    rw [hu] at this
    simpa using this

/-- A worker's whole scan never rewrites an occupied next-buffer cell: the
first successful claim of a cell is the one that survives the tick. -/
theorem updateSlice_preserves (wwidth wheight : Nat) (fBreed sBreed starve c : Int)
    (rng : Nat → Nat) (w : World) (startY endY : Nat) :
    ∀ (acc : World × Nat × Nat) (p : coordinate) (b : creature),
      acc.1 p = some b →
      (updateSlice wwidth wheight fBreed sBreed starve c rng w startY endY acc).1 p = some b := by
  unfold updateSlice
  generalize List.range' startY (endY - startY) = ys
  induction ys with
  | nil => intro acc p b h; simpa using h
  | cons a as ih =>
    intro acc p b h
    rw [List.foldl_cons]
    exact ih _ _ _ (updateRow_preserves wwidth wheight fBreed sBreed starve c rng w a acc p b h)

/-- C1: after `Chronon` returns, the new write buffer is entirely empty;
every position of the new current grid holds at most one creature; and —
for every slice decomposition, random stream and accumulated next-buffer
state — a next-buffer cell, once successfully claimed, is never rewritten
by further processing (first successful claim wins), so the
at-most-one-creature-per-cell invariant is preserved by every tick
regardless of the worker count. -/
theorem c1_tick_uniqueness (wwidth wheight : Nat)
    (fBreed sBreed starve nThreads c : Int) (workers : Nat → Nat → Nat)
    (world nextWorld : World) :
    (∀ p, (Chronon wwidth wheight fBreed sBreed starve nThreads c workers
        world nextWorld).2.1 p = none) ∧
    (∀ (p : coordinate) (c1 c2 : creature),
      (Chronon wwidth wheight fBreed sBreed starve nThreads c workers
          world nextWorld).1 p = some c1 →
      (Chronon wwidth wheight fBreed sBreed starve nThreads c workers
          world nextWorld).1 p = some c2 → c1 = c2) ∧
    (∀ (w : World) (rng : Nat → Nat) (startY endY : Nat)
       (acc : World × Nat × Nat) (p : coordinate) (b : creature),
      acc.1 p = some b →
      (updateSlice wwidth wheight fBreed sBreed starve c rng w startY endY acc).1 p
        = some b) := by
  refine ⟨fun p => rfl, ?_, ?_⟩
  · intro p c1 c2 h1 h2
    rw [h1] at h2
    exact Option.some.inj h2
  · intro w rng startY endY acc p b h
    exact updateSlice_preserves wwidth wheight fBreed sBreed starve c rng w
      startY endY acc p b h

/-- Witness for C1 on a 1×1 grid holding a single fish: the cleared write
buffer is empty, the surviving occupant is unique, and an occupied
next-buffer cell survives a whole slice scan unchanged. -/
theorem c1_tick_uniqueness_witness :
    (Chronon 1 1 100 150 150 1 0 (fun _ _ => 0) emptyWorld emptyWorld).2.1 ⟨0, 0⟩
      = none ∧
    ({ age := 1, health := 0, species := 0, asset := fishcolor, chronon := 0 } : creature) =
      { age := 1, health := 0, species := 0, asset := fishcolor, chronon := 0 } ∧
    (updateSlice 1 1 100 150 150 0 (fun _ => 0) emptyWorld 0 1
        (setCell emptyWorld ⟨0, 0⟩
          { age := 1, health := 0, species := 0, asset := fishcolor, chronon := 0 }, 0, 0)).1
        ⟨0, 0⟩ =
      some { age := 1, health := 0, species := 0, asset := fishcolor, chronon := 0 } :=
  ⟨(c1_tick_uniqueness 1 1 100 150 150 1 0 (fun _ _ => 0) emptyWorld emptyWorld).1 ⟨0, 0⟩,
   (c1_tick_uniqueness 1 1 100 150 150 1 0 (fun _ _ => 0)
      (setCell emptyWorld ⟨0, 0⟩
        { age := 0, health := 0, species := 0, asset := fishcolor, chronon := 0 })
      emptyWorld).2.1 ⟨0, 0⟩ _ _ (by decide) (by decide),
   (c1_tick_uniqueness 1 1 100 150 150 1 0 (fun _ _ => 0) emptyWorld emptyWorld).2.2
      emptyWorld (fun _ => 0) 0 1
      (setCell emptyWorld ⟨0, 0⟩
        { age := 1, health := 0, species := 0, asset := fishcolor, chronon := 0 }, 0, 0)
      ⟨0, 0⟩ { age := 1, health := 0, species := 0, asset := fishcolor, chronon := 0 }
      (by decide)⟩

/-! ## Scheduler helpers and C5: starvation death -/

/-- On a height-1 grid, every requested worker count is normalized to a
single worker. -/
theorem coerceWorkers_one (K : Int) : coerceWorkers K 1 = 1 := by
  unfold coerceWorkers
  by_cases h : K ≤ 0
  · simp only [if_pos h]
    norm_num
  · simp only [if_neg h]
    split_ifs <;> omega

/-- On a height-1 grid, a tick is exactly one worker scanning row 0. -/
theorem Chronon_height_one (wwidth : Nat) (fBreed sBreed starve K c : Int)
    (workers : Nat → Nat → Nat) (world nextWorld : World) :
    Chronon wwidth 1 fBreed sBreed starve K c workers world nextWorld =
      ((updateSlice wwidth 1 fBreed sBreed starve c (workers 0) world 0 1
          (nextWorld, 0, 0)).1,
       fun _ => none,
       (updateSlice wwidth 1 fBreed sBreed starve c (workers 0) world 0 1
          (nextWorld, 0, 0)).2.2) := by
  unfold Chronon
  rw [coerceWorkers_one]
  rfl

/-- Scanning an empty current-buffer cell changes nothing. -/
theorem updateCell_of_none (wwidth wheight : Nat) (fBreed sBreed starve c : Int)
    (rng : Nat → Nat) (w : World) (x y : Nat) (nw : World) (k : Nat)
    (h : w ⟨x, y⟩ = none) :
    updateCell wwidth wheight fBreed sBreed starve c rng w x y nw k = (nw, k, 0) := by
  unfold updateCell
  rw [h]

/-- A shark whose energy is `≤ 1` before the tick dies of starvation: after
the energy decrement its energy is `≤ 0` and it is not placed into the next
buffer at all. -/
theorem updateCell_shark_starved (wwidth wheight : Nat) (fBreed sBreed starve c : Int)
    (rng : Nat → Nat) (w : World) (x y : Nat) (nw : World) (k : Nat) (cr0 : creature)
    (hw : w ⟨x, y⟩ = some cr0) (hsp : cr0.species = SHARK) (hh : cr0.health ≤ 1) :
    updateCell wwidth wheight fBreed sBreed starve c rng w x y nw k = (nw, k, 0) := by
  unfold updateCell
  simp only [hw]
  simp only [hsp, SHARK]
  rw [if_pos (show cr0.health - 1 ≤ 0 by omega)]

/-- C5: a Hunter's energy is decremented first, and a resulting energy `≤ 0`
means the Hunter is never placed into the next buffer (its processing
changes nothing); in particular a grid holding a single Hunter with energy 1
and no Grazers contains zero creatures after one tick, for every random
stream and requested worker count. -/
theorem c5_hunter_starvation :
    (∀ (wwidth wheight : Nat) (fBreed sBreed starve c : Int) (rng : Nat → Nat)
       (w : World) (x y : Nat) (nw : World) (k : Nat) (cr0 : creature),
       w ⟨x, y⟩ = some cr0 → cr0.species = SHARK → cr0.health ≤ 1 →
       updateCell wwidth wheight fBreed sBreed starve c rng w x y nw k = (nw, k, 0)) ∧
    (∀ (K c : Int) (workers : Nat → Nat → Nat) (p : coordinate),
       (Chronon 2 1 100 150 150 K c workers
          (setCell emptyWorld ⟨0, 0⟩
            { age := 0, health := 1, species := SHARK, asset := sharkcolor, chronon := 0 })
          emptyWorld).1 p = none) := by
  constructor
  · intro wwidth wheight fBreed sBreed starve c rng w x y nw k cr0 hw hsp hh
    exact updateCell_shark_starved wwidth wheight fBreed sBreed starve c rng w x y nw k
      cr0 hw hsp hh
  · intro K c workers p
    rw [Chronon_height_one]
    have h1 : updateCell 2 1 100 150 150 c (workers 0)
        (setCell emptyWorld ⟨0, 0⟩
          { age := 0, health := 1, species := SHARK, asset := sharkcolor, chronon := 0 })
        0 0 emptyWorld 0 = (emptyWorld, 0, 0) :=
      updateCell_shark_starved 2 1 100 150 150 c (workers 0) _ 0 0 emptyWorld 0
        { age := 0, health := 1, species := SHARK, asset := sharkcolor, chronon := 0 }
        (by decide) rfl (by decide)
    have h2 : updateCell 2 1 100 150 150 c (workers 0)
        (setCell emptyWorld ⟨0, 0⟩
          { age := 0, health := 1, species := SHARK, asset := sharkcolor, chronon := 0 })
        1 0 emptyWorld 0 = (emptyWorld, 0, 0) :=
      updateCell_of_none 2 1 100 150 150 c (workers 0) _ 1 0 emptyWorld 0 (by decide)
    unfold updateSlice updateRow
    rw [show List.range' 0 (1 - 0) = [0] from rfl, show List.range 2 = [0, 1] from rfl]
    simp only [List.foldl_cons, List.foldl_nil, h1, h2]
    rfl

/-- Witness for C5: the starvation branch applied to a concrete grid, and
the concrete empty-after-tick scenario with four requested workers. -/
theorem c5_hunter_starvation_witness :
    updateCell 1 1 100 150 150 0 (fun _ => 0)
        (setCell emptyWorld ⟨0, 0⟩
          { age := 5, health := 1, species := SHARK, asset := sharkcolor, chronon := 0 })
        0 0 emptyWorld 0 = (emptyWorld, 0, 0) ∧
    (Chronon 2 1 100 150 150 4 0 (fun _ _ => 0)
        (setCell emptyWorld ⟨0, 0⟩
          { age := 0, health := 1, species := SHARK, asset := sharkcolor, chronon := 0 })
        emptyWorld).1 ⟨0, 0⟩ = none :=
  ⟨c5_hunter_starvation.1 1 1 100 150 150 0 (fun _ => 0) _ 0 0 emptyWorld 0
      { age := 5, health := 1, species := SHARK, asset := sharkcolor, chronon := 0 }
      (by decide) rfl (by decide),
   c5_hunter_starvation.2 4 0 (fun _ _ => 0) ⟨0, 0⟩⟩

/-! ## C10: silent loss of a creature that loses every claim race -/

/-- C10: a non-starving creature can be absent from the grid after a tick
with no error signalled.  On a 2×1 ring, the shark at (0,0) eats the fish
at (1,0) — claiming that next-buffer cell — while the fish, processed
later from the frozen current buffer, fails all four movement attempts and
then fails its final stay-in-place claim of (1,0); the discarded boolean is
the only trace, the fish (a Grazer, which cannot starve) is simply not
present, and the tick completes normally with the shark as sole survivor. -/
theorem c10_silent_disappearance :
    (setCell (setCell emptyWorld ⟨0, 0⟩
        { age := 0, health := 20, species := SHARK, asset := sharkcolor, chronon := 0 })
        ⟨1, 0⟩ { age := 3, health := 0, species := FISH, asset := fishcolor, chronon := 0 })
      ⟨1, 0⟩ = some { age := 3, health := 0, species := FISH, asset := fishcolor, chronon := 0 } ∧
    (Chronon 2 1 100 150 150 1 7 (fun _ _ => 2)
        (setCell (setCell emptyWorld ⟨0, 0⟩
          { age := 0, health := 20, species := SHARK, asset := sharkcolor, chronon := 0 })
          ⟨1, 0⟩ { age := 3, health := 0, species := FISH, asset := fishcolor, chronon := 0 })
        emptyWorld).1 ⟨1, 0⟩ =
      some { age := 1, health := 150, species := SHARK, asset := sharkcolor, chronon := 7 } ∧
    (Chronon 2 1 100 150 150 1 7 (fun _ _ => 2)
        (setCell (setCell emptyWorld ⟨0, 0⟩
          { age := 0, health := 20, species := SHARK, asset := sharkcolor, chronon := 0 })
          ⟨1, 0⟩ { age := 3, health := 0, species := FISH, asset := fishcolor, chronon := 0 })
        emptyWorld).1 ⟨0, 0⟩ = none ∧
    countOccupied 2 1
      (Chronon 2 1 100 150 150 1 7 (fun _ _ => 2)
        (setCell (setCell emptyWorld ⟨0, 0⟩
          { age := 0, health := 20, species := SHARK, asset := sharkcolor, chronon := 0 })
          ⟨1, 0⟩ { age := 3, health := 0, species := FISH, asset := fishcolor, chronon := 0 })
        emptyWorld).1 = 1 ∧
    countOccupied 2 1
      (setCell (setCell emptyWorld ⟨0, 0⟩
        { age := 0, health := 20, species := SHARK, asset := sharkcolor, chronon := 0 })
        ⟨1, 0⟩ { age := 3, health := 0, species := FISH, asset := fishcolor, chronon := 0 }) = 2 := by
  decide

/-! ## C4: population accounting -/

/-- Counterexample to C4 as stated: on a 2×1 ring holding a shark with
energy 10 (far from starving) and a fish, one tick ends with a single
creature, zero successful breeding placements, and no starvation death —
the fish was eaten (and its stay-in-place claim lost), so the population
shrank by predation, not starvation. -/
theorem c4_counterexample :
    countOccupied 2 1
      (setCell (setCell emptyWorld ⟨0, 0⟩
        { age := 1, health := 10, species := SHARK, asset := sharkcolor, chronon := 0 })
        ⟨1, 0⟩ { age := 0, health := 0, species := FISH, asset := fishcolor, chronon := 0 }) = 2 ∧
    (setCell (setCell emptyWorld ⟨0, 0⟩
        { age := 1, health := 10, species := SHARK, asset := sharkcolor, chronon := 0 })
        ⟨1, 0⟩ { age := 0, health := 0, species := FISH, asset := fishcolor, chronon := 0 })
      ⟨0, 0⟩ = some { age := 1, health := 10, species := SHARK, asset := sharkcolor, chronon := 0 } ∧
    (setCell (setCell emptyWorld ⟨0, 0⟩
        { age := 1, health := 10, species := SHARK, asset := sharkcolor, chronon := 0 })
        ⟨1, 0⟩ { age := 0, health := 0, species := FISH, asset := fishcolor, chronon := 0 })
      ⟨1, 0⟩ = some { age := 0, health := 0, species := FISH, asset := fishcolor, chronon := 0 } ∧
    (Chronon 2 1 100 150 150 1 1 (fun _ _ => 3)
        (setCell (setCell emptyWorld ⟨0, 0⟩
          { age := 1, health := 10, species := SHARK, asset := sharkcolor, chronon := 0 })
          ⟨1, 0⟩ { age := 0, health := 0, species := FISH, asset := fishcolor, chronon := 0 })
        emptyWorld).2.2 = 0 ∧
    countOccupied 2 1
      (Chronon 2 1 100 150 150 1 1 (fun _ _ => 3)
        (setCell (setCell emptyWorld ⟨0, 0⟩
          { age := 1, health := 10, species := SHARK, asset := sharkcolor, chronon := 0 })
          ⟨1, 0⟩ { age := 0, health := 0, species := FISH, asset := fishcolor, chronon := 0 })
        emptyWorld).1 = 1 := by
  decide

/-! ## C8: worker-count normalization and row partition -/

/-- A requested worker count `≤ 0` is coerced to 1. -/
theorem coerceWorkers_nonpos (K : Int) (H : Nat) (hH : 1 ≤ H) (hk : K ≤ 0) :
    coerceWorkers K H = 1 := by
  unfold coerceWorkers
  dsimp only
  rw [if_pos hk, if_neg (show ¬(1 : Int) > (H : Int) by omega)]
  rfl

/-- A requested worker count exceeding the height is coerced to the height. -/
theorem coerceWorkers_big (K : Int) (H : Nat) (hk : (H : Int) < K) :
    coerceWorkers K H = H := by
  unfold coerceWorkers
  dsimp only
  rw [if_neg (show ¬K ≤ 0 by omega), if_pos (show K > (H : Int) by omega)]
  omega

/-- A worker count already in `[1, H]` is kept. -/
theorem coerceWorkers_mid (K : Int) (H : Nat) (h1 : 0 < K) (h2 : K ≤ (H : Int)) :
    coerceWorkers K H = K.toNat := by
  unfold coerceWorkers
  dsimp only
  rw [if_neg (show ¬K ≤ 0 by omega), if_neg (show ¬K > (H : Int) by omega)]

/-- The coerced worker count is at least 1. -/
theorem coerceWorkers_pos (K : Int) (H : Nat) (hH : 1 ≤ H) : 1 ≤ coerceWorkers K H := by
  by_cases hk : K ≤ 0
  · rw [coerceWorkers_nonpos K H hH hk]
  · by_cases hk2 : (H : Int) < K
    · rw [coerceWorkers_big K H hk2]
      exact hH
    · rw [coerceWorkers_mid K H (by omega) (by omega)]
      omega

/-- The coerced worker count is at most the height. -/
theorem coerceWorkers_le (K : Int) (H : Nat) (hH : 1 ≤ H) : coerceWorkers K H ≤ H := by
  by_cases hk : K ≤ 0
  · rw [coerceWorkers_nonpos K H hH hk]
    exact hH
  · by_cases hk2 : (H : Int) < K
    · rw [coerceWorkers_big K H hk2]
    · rw [coerceWorkers_mid K H (by omega) (by omega)]
      omega

/-- Every row index below `H` lies in exactly one of the `n` contiguous
ranges `[i*r, (i+1)*r)` (last range extended to `H`). -/
theorem rows_covered (n r H : Nat) (hn : 1 ≤ n) (hr1 : 1 ≤ r) (_hnr : n * r ≤ H)
    (y : Nat) (hy : y < H) :
    ∃! i, i < n ∧ i * r ≤ y ∧ y < (if i = n - 1 then H else i * r + r) := by
  have hrpos : 0 < r := by omega
  have hdm := Nat.div_add_mod y r
  have hmod : y % r < r := Nat.mod_lt y hrpos
  have hcomm : (y / r) * r = r * (y / r) := Nat.mul_comm _ _
  by_cases hqn : y / r ≤ n - 1
  · refine ⟨y / r, ⟨by omega, by omega, ?_⟩, ?_⟩
    · by_cases hql : y / r = n - 1
      · rw [if_pos hql]
        exact hy
      · rw [if_neg hql]
        omega
    · intro j hj
      obtain ⟨hjn, hjs, hje⟩ := hj
      have hj1 : j ≤ y / r := (Nat.le_div_iff_mul_le hrpos).mpr hjs
      by_cases hjl : j = n - 1
      · omega
      · rw [if_neg hjl] at hje
        have hsm : (j + 1) * r = j * r + r := Nat.succ_mul j r
        have hj2 : y / r < j + 1 := (Nat.div_lt_iff_lt_mul hrpos).mpr (by omega)
        omega
  · refine ⟨n - 1, ⟨by omega, ?_, ?_⟩, ?_⟩
    · have hmul : (n - 1) * r ≤ (y / r) * r := Nat.mul_le_mul_right r (by omega)
      omega
    · rw [if_pos rfl]
      exact hy
    · intro j hj
      obtain ⟨hjn, hjs, hje⟩ := hj
      by_cases hjl : j = n - 1
      · omega
      · rw [if_neg hjl] at hje
        have hsm : (j + 1) * r = j * r + r := Nat.succ_mul j r
        have hj2 : y / r < j + 1 := (Nat.div_lt_iff_lt_mul hrpos).mpr (by omega)
        omega

/-- C8: the worker count is coerced to 1 when `K ≤ 0` and to `H` when
`K > H`; the resulting `n` workers receive contiguous row ranges of size
`⌊H/n⌋`, the remainder rows going to the last worker, and every row below
`H` belongs to exactly one worker's range. -/
theorem c8_strip_partition (K : Int) (H : Nat) (hH : 1 ≤ H) :
    (K ≤ 0 → coerceWorkers K H = 1) ∧
    ((H : Int) < K → coerceWorkers K H = H) ∧
    (0 < K → K ≤ (H : Int) → coerceWorkers K H = K.toNat) ∧
    (sliceBounds K H).length = coerceWorkers K H ∧
    (∀ i, i + 1 < coerceWorkers K H →
      (sliceBounds K H)[i]? =
        some (i * (H / coerceWorkers K H),
              i * (H / coerceWorkers K H) + H / coerceWorkers K H)) ∧
    (sliceBounds K H)[coerceWorkers K H - 1]? =
      some ((coerceWorkers K H - 1) * (H / coerceWorkers K H), H) ∧
    (∀ y, y < H → ∃! i, i < coerceWorkers K H ∧
      i * (H / coerceWorkers K H) ≤ y ∧
      y < (if i = coerceWorkers K H - 1 then H
           else i * (H / coerceWorkers K H) + H / coerceWorkers K H)) := by
  have hn1 := coerceWorkers_pos K H hH
  have hnH := coerceWorkers_le K H hH
  have hr1 : 1 ≤ H / coerceWorkers K H :=
    (Nat.one_le_div_iff (by omega)).mpr hnH
  have hnr : coerceWorkers K H * (H / coerceWorkers K H) ≤ H := by
    rw [Nat.mul_comm]
    exact Nat.div_mul_le_self H (coerceWorkers K H)
  refine ⟨fun hk => coerceWorkers_nonpos K H hH hk, fun hk => coerceWorkers_big K H hk,
    fun hk1 hk2 => coerceWorkers_mid K H hk1 hk2, ?_, ?_, ?_, ?_⟩
  · simp [sliceBounds]
  · intro i hi
    simp only [sliceBounds, List.getElem?_map,
      List.getElem?_range (show i < coerceWorkers K H by omega), Option.map_some']
    rw [if_neg (show i ≠ coerceWorkers K H - 1 by omega)]
  · simp only [sliceBounds, List.getElem?_map,
      List.getElem?_range (show coerceWorkers K H - 1 < coerceWorkers K H by omega),
      Option.map_some']
    simp
  · intro y hy
    exact rows_covered (coerceWorkers K H) (H / coerceWorkers K H) H hn1 hr1
      hnr y hy

/-- Witness for C8 at worker count 2 on a 3-row grid. -/
theorem c8_strip_partition_witness :
    1 ≤ 3 ∧
    (((2 : Int) ≤ 0 → coerceWorkers 2 3 = 1) ∧
     (((3 : Nat) : Int) < 2 → coerceWorkers 2 3 = 3) ∧
     (0 < (2 : Int) → (2 : Int) ≤ ((3 : Nat) : Int) → coerceWorkers 2 3 = (2 : Int).toNat) ∧
     (sliceBounds 2 3).length = coerceWorkers 2 3 ∧
     (∀ i, i + 1 < coerceWorkers 2 3 →
       (sliceBounds 2 3)[i]? =
         some (i * (3 / coerceWorkers 2 3),
               i * (3 / coerceWorkers 2 3) + 3 / coerceWorkers 2 3)) ∧
     (sliceBounds 2 3)[coerceWorkers 2 3 - 1]? =
       some ((coerceWorkers 2 3 - 1) * (3 / coerceWorkers 2 3), 3) ∧
     (∀ y, y < 3 → ∃! i, i < coerceWorkers 2 3 ∧
       i * (3 / coerceWorkers 2 3) ≤ y ∧
       y < (if i = coerceWorkers 2 3 - 1 then 3
            else i * (3 / coerceWorkers 2 3) + 3 / coerceWorkers 2 3))) :=
  ⟨by decide, c8_strip_partition 2 3 (by decide)⟩

/-! ## C6: Grazer breeding into the vacated origin cell -/

/-- Behavior of the fish branch when the first movement attempt targets a
cell that is empty in both buffers and the (already incremented) age is a
positive multiple of the breed threshold: the fish relocates to the target;
exactly one offspring (age 0, species fish) is placed in the origin iff the
origin is still unclaimed, silently skipped otherwise; no other cell is
touched. -/
theorem fishStep_breeds (wwidth wheight : Nat) (fBreed c : Int) (rng : Nat → Nat)
    (w : World) (x y : Nat) (cr : creature) (nw : World) (k : Nat)
    (hage : cr.age > 0) (hbreed : cr.age.tmod fBreed = 0)
    (hne : (⟨x, y⟩ : coordinate) ≠ pickDir (adjacent wwidth wheight x y) ((rng k + 0) % 4))
    (hcur : w (pickDir (adjacent wwidth wheight x y) ((rng k + 0) % 4)) = none)
    (hnw : nw (pickDir (adjacent wwidth wheight x y) ((rng k + 0) % 4)) = none) :
    ((fishStep wwidth wheight fBreed c rng w x y cr nw k).1
        (pickDir (adjacent wwidth wheight x y) ((rng k + 0) % 4)) = some cr) ∧
    (nw ⟨x, y⟩ = none →
      (fishStep wwidth wheight fBreed c rng w x y cr nw k).1 ⟨x, y⟩ =
        some { age := 0, health := 0, species := FISH, asset := fishcolor, chronon := c } ∧
      (fishStep wwidth wheight fBreed c rng w x y cr nw k).2.2 = 1) ∧
    (∀ b, nw ⟨x, y⟩ = some b →
      (fishStep wwidth wheight fBreed c rng w x y cr nw k).1 ⟨x, y⟩ = some b ∧
      (fishStep wwidth wheight fBreed c rng w x y cr nw k).2.2 = 0) ∧
    (∀ p, p ≠ (⟨x, y⟩ : coordinate) →
      p ≠ pickDir (adjacent wwidth wheight x y) ((rng k + 0) % 4) →
      (fishStep wwidth wheight fBreed c rng w x y cr nw k).1 p = nw p) := by
  have hloop : fishMoveLoop wwidth wheight fBreed c rng w x y cr 4 0 nw k =
      ((tryClaim (setCell nw (pickDir (adjacent wwidth wheight x y) ((rng k + 0) % 4)) cr)
          ⟨x, y⟩ { age := 0, health := 0, species := FISH, asset := fishcolor, chronon := c }).2,
       k + 1, true,
       if (tryClaim (setCell nw (pickDir (adjacent wwidth wheight x y) ((rng k + 0) % 4)) cr)
          ⟨x, y⟩ { age := 0, health := 0, species := FISH, asset := fishcolor, chronon := c }).1
       then 1 else 0) := by
    rw [show (4 : Nat) = 3 + 1 from rfl]
    simp only [fishMoveLoop]
    simp only [hcur]
    rw [tryClaim_of_none nw _ cr hnw]
    simp only [if_pos (And.intro hage hbreed)]
  have h1 : setCell nw (pickDir (adjacent wwidth wheight x y) ((rng k + 0) % 4)) cr ⟨x, y⟩
      = nw ⟨x, y⟩ :=
    setCell_other nw _ _ cr hne
  unfold fishStep
  rw [hloop]
  refine ⟨?_, ?_, ?_, ?_⟩
  · exact tryClaim_preserves _ _ _ _ _ (setCell_self nw _ cr)
  · intro h0
    rw [tryClaim_of_none _ _ _ (by rw [h1, h0])]
    exact ⟨setCell_self _ _ _, rfl⟩
  · intro b h0
    rw [tryClaim_of_some _ _ _ b (by rw [h1, h0])]
    constructor
    · show setCell nw (pickDir (adjacent wwidth wheight x y) ((rng k + 0) % 4)) cr ⟨x, y⟩
        = some b
      rw [h1]
      exact h0
    · rfl
  · intro p hpo hpt
    cases h0 : nw ⟨x, y⟩ with
    | none =>
      rw [tryClaim_of_none _ _ _ (by rw [h1, h0])]
      show setCell _ ⟨x, y⟩ _ p = nw p
      rw [setCell_other _ _ _ _ hpo, setCell_other _ _ _ _ hpt]
    | some b =>
      rw [tryClaim_of_some _ _ _ b (by rw [h1, h0])]
      show setCell nw _ cr p = nw p
      rw [setCell_other _ _ _ _ hpt]

/-- C6: a Grazer whose post-increment age is a positive multiple of the
breed threshold and whose (first-attempt) movement claim succeeds places
exactly one age-0 Grazer offspring into its original cell when that cell is
still unclaimed, silently creates no offspring when the original cell has
already been claimed, and touches no other cell; no error is possible. -/
theorem c6_grazer_breeding (wwidth wheight : Nat) (fBreed sBreed starve c : Int)
    (rng : Nat → Nat) (w : World) (x y : Nat) (nw : World) (k : Nat) (cr0 : creature)
    (hw : w ⟨x, y⟩ = some cr0) (hsp : cr0.species = FISH)
    (hage : cr0.age + 1 > 0) (hbreed : (cr0.age + 1).tmod fBreed = 0)
    (hcur : w (pickDir (adjacent wwidth wheight x y) ((rng k + 0) % 4)) = none)
    (hnw : nw (pickDir (adjacent wwidth wheight x y) ((rng k + 0) % 4)) = none) :
    ((updateCell wwidth wheight fBreed sBreed starve c rng w x y nw k).1
        (pickDir (adjacent wwidth wheight x y) ((rng k + 0) % 4)) =
      some { age := cr0.age + 1, health := cr0.health, species := FISH,
             asset := cr0.asset, chronon := c }) ∧
    (nw ⟨x, y⟩ = none →
      (updateCell wwidth wheight fBreed sBreed starve c rng w x y nw k).1 ⟨x, y⟩ =
        some { age := 0, health := 0, species := FISH, asset := fishcolor, chronon := c } ∧
      (updateCell wwidth wheight fBreed sBreed starve c rng w x y nw k).2.2 = 1) ∧
    (∀ b, nw ⟨x, y⟩ = some b →
      (updateCell wwidth wheight fBreed sBreed starve c rng w x y nw k).1 ⟨x, y⟩ = some b ∧
      (updateCell wwidth wheight fBreed sBreed starve c rng w x y nw k).2.2 = 0) ∧
    (∀ p, p ≠ (⟨x, y⟩ : coordinate) →
      p ≠ pickDir (adjacent wwidth wheight x y) ((rng k + 0) % 4) →
      (updateCell wwidth wheight fBreed sBreed starve c rng w x y nw k).1 p = nw p) := by
  have hne : (⟨x, y⟩ : coordinate) ≠ pickDir (adjacent wwidth wheight x y) ((rng k + 0) % 4) := by
    intro h
    rw [← h, hw] at hcur
    exact Option.noConfusion hcur
  have hred : updateCell wwidth wheight fBreed sBreed starve c rng w x y nw k =
      fishStep wwidth wheight fBreed c rng w x y
        { age := cr0.age + 1, health := cr0.health, species := 0,
          asset := cr0.asset, chronon := c } nw k := by
    unfold updateCell
    simp only [hw]
    simp only [hsp, FISH]
  rw [hred]
  exact fishStep_breeds wwidth wheight fBreed c rng w x y
    { age := cr0.age + 1, health := cr0.health, species := 0,
      asset := cr0.asset, chronon := c } nw k hage hbreed hne hcur hnw

/-- Witness for C6: a 99-tick-old fish on a 3×1 ring moves east and breeds
into its vacated origin. -/
theorem c6_grazer_breeding_witness :
    ((updateCell 3 1 100 150 150 5 (fun _ => 2)
        (setCell emptyWorld ⟨0, 0⟩
          { age := 99, health := 0, species := FISH, asset := fishcolor, chronon := 0 })
        0 0 emptyWorld 0).1
        (pickDir (adjacent 3 1 0 0) (((fun _ : Nat => 2) 0 + 0) % 4)) =
      some { age := (99 : Int) + 1, health := 0, species := FISH,
             asset := fishcolor, chronon := 5 }) ∧
    (emptyWorld ⟨0, 0⟩ = none →
      (updateCell 3 1 100 150 150 5 (fun _ => 2)
        (setCell emptyWorld ⟨0, 0⟩
          { age := 99, health := 0, species := FISH, asset := fishcolor, chronon := 0 })
        0 0 emptyWorld 0).1 ⟨0, 0⟩ =
        some { age := 0, health := 0, species := FISH, asset := fishcolor, chronon := 5 } ∧
      (updateCell 3 1 100 150 150 5 (fun _ => 2)
        (setCell emptyWorld ⟨0, 0⟩
          { age := 99, health := 0, species := FISH, asset := fishcolor, chronon := 0 })
        0 0 emptyWorld 0).2.2 = 1) ∧
    (∀ b, emptyWorld ⟨0, 0⟩ = some b →
      (updateCell 3 1 100 150 150 5 (fun _ => 2)
        (setCell emptyWorld ⟨0, 0⟩
          { age := 99, health := 0, species := FISH, asset := fishcolor, chronon := 0 })
        0 0 emptyWorld 0).1 ⟨0, 0⟩ = some b ∧
      (updateCell 3 1 100 150 150 5 (fun _ => 2)
        (setCell emptyWorld ⟨0, 0⟩
          { age := 99, health := 0, species := FISH, asset := fishcolor, chronon := 0 })
        0 0 emptyWorld 0).2.2 = 0) ∧
    (∀ p, p ≠ (⟨0, 0⟩ : coordinate) →
      p ≠ pickDir (adjacent 3 1 0 0) (((fun _ : Nat => 2) 0 + 0) % 4) →
      (updateCell 3 1 100 150 150 5 (fun _ => 2)
        (setCell emptyWorld ⟨0, 0⟩
          { age := 99, health := 0, species := FISH, asset := fishcolor, chronon := 0 })
        0 0 emptyWorld 0).1 p = emptyWorld p) :=
  c6_grazer_breeding 3 1 100 150 150 5 (fun _ => 2)
    (setCell emptyWorld ⟨0, 0⟩
      { age := 99, health := 0, species := FISH, asset := fishcolor, chronon := 0 })
    0 0 emptyWorld 0
    { age := 99, health := 0, species := FISH, asset := fishcolor, chronon := 0 }
    (by decide) rfl (by decide) (by decide) (by decide) (by decide)

/-! ## C7: energy reset precedes the hunt claim -/

/-- Once a shark carries energy `starve` into the hunt loop, it still
carries energy `starve` whenever the loop ends without a successful claim:
failed claims and skipped directions never lower the fed energy, and every
sighting resets it again. -/
theorem sharkHuntLoop_fed (wwidth wheight : Nat) (sBreed starve c : Int)
    (rng : Nat → Nat) (w : World) (x y : Nat) :
    ∀ (fuel i : Nat) (cr : creature) (nw : World) (k : Nat),
      cr.health = starve →
      (sharkHuntLoop wwidth wheight sBreed starve c rng w x y fuel i cr nw k).2.2.1 = false →
      (sharkHuntLoop wwidth wheight sBreed starve c rng w x y fuel i cr nw k).2.2.2.2.health
        = starve := by
  intro fuel
  induction fuel with
  | zero => intro i cr nw k hcr hm; simpa [sharkHuntLoop] using hcr
  | succ n ih =>
    intro i cr nw k hcr hm
    cases hwt : w (pickDir (adjacent wwidth wheight x y) ((rng k + i) % 4)) with
    | none =>
      have heq : sharkHuntLoop wwidth wheight sBreed starve c rng w x y (n + 1) i cr nw k
          = sharkHuntLoop wwidth wheight sBreed starve c rng w x y n (i + 1) cr nw (k + 1) := by
        conv_lhs => simp only [sharkHuntLoop]
        rw [hwt]
      rw [heq] at hm ⊢
      exact ih (i + 1) cr nw (k + 1) hcr hm
    | some prey =>
      by_cases hsp : prey.species = FISH
      · rcases hcl : tryClaim nw (pickDir (adjacent wwidth wheight x y) ((rng k + i) % 4))
            { cr with health := starve } with ⟨ok, nw1⟩
        cases ok with
        | true =>
          exfalso
          simp only [sharkHuntLoop, hwt, if_pos hsp, hcl] at hm
          split at hm <;> simp at hm
        | false =>
          have heq : sharkHuntLoop wwidth wheight sBreed starve c rng w x y (n + 1) i cr nw k
              = sharkHuntLoop wwidth wheight sBreed starve c rng w x y n (i + 1)
                  { cr with health := starve } nw1 (k + 1) := by
            conv_lhs => simp only [sharkHuntLoop]
            rw [hwt]
            simp only [if_pos hsp, hcl]
          rw [heq] at hm ⊢
          exact ih (i + 1) { cr with health := starve } nw1 (k + 1) rfl hm
      · have heq : sharkHuntLoop wwidth wheight sBreed starve c rng w x y (n + 1) i cr nw k
            = sharkHuntLoop wwidth wheight sBreed starve c rng w x y n (i + 1) cr nw (k + 1) := by
          conv_lhs => simp only [sharkHuntLoop]
          rw [hwt]
          simp only [if_neg hsp]
        rw [heq] at hm ⊢
        exact ih (i + 1) cr nw (k + 1) hcr hm

/-- One hunt attempt that sights a fish whose next-buffer cell is already
occupied: the shark's energy is set to `starve` *before* the claim is
attempted, so the failed claim leaves the loop continuing with the fed
creature. -/
theorem sharkHuntLoop_succ_found (wwidth wheight : Nat) (sBreed starve c : Int)
    (rng : Nat → Nat) (w : World) (x y : Nat) (n i : Nat) (cr : creature)
    (nw : World) (k : Nat) (prey blk : creature)
    (hwt : w (pickDir (adjacent wwidth wheight x y) ((rng k + i) % 4)) = some prey)
    (hprey : prey.species = FISH)
    (hbusy : nw (pickDir (adjacent wwidth wheight x y) ((rng k + i) % 4)) = some blk) :
    sharkHuntLoop wwidth wheight sBreed starve c rng w x y (n + 1) i cr nw k =
      sharkHuntLoop wwidth wheight sBreed starve c rng w x y n (i + 1)
        { cr with health := starve } nw (k + 1) := by
  conv_lhs => simp only [sharkHuntLoop]
  rw [hwt]
  simp only [if_pos hprey, tryClaim_of_some nw _ _ blk hbusy]

/-- C7: when the first hunt attempt sights a Grazer, the Hunter's energy is
reset to `starve` before the `tryClaim`; if that claim fails (the cell is
already taken), the loop proceeds with the fed creature, and whenever the
whole hunt ends unmoved, the creature carried into the movement and
stay-in-place phases has energy exactly `starve`. -/
theorem c7_hunter_fed_before_claim (wwidth wheight : Nat) (sBreed starve c : Int)
    (rng : Nat → Nat) (w : World) (x y : Nat) (cr : creature) (nw : World) (k : Nat)
    (prey blk : creature)
    (hwt : w (pickDir (adjacent wwidth wheight x y) ((rng k + 0) % 4)) = some prey)
    (hprey : prey.species = FISH)
    (hbusy : nw (pickDir (adjacent wwidth wheight x y) ((rng k + 0) % 4)) = some blk) :
    (sharkHuntLoop wwidth wheight sBreed starve c rng w x y 4 0 cr nw k =
      sharkHuntLoop wwidth wheight sBreed starve c rng w x y 3 1
        { cr with health := starve } nw (k + 1)) ∧
    ((sharkHuntLoop wwidth wheight sBreed starve c rng w x y 4 0 cr nw k).2.2.1 = false →
      (sharkHuntLoop wwidth wheight sBreed starve c rng w x y 4 0 cr nw k).2.2.2.2.health
        = starve) := by
  have heq : sharkHuntLoop wwidth wheight sBreed starve c rng w x y 4 0 cr nw k =
      sharkHuntLoop wwidth wheight sBreed starve c rng w x y 3 1
        { cr with health := starve } nw (k + 1) := by
    rw [show (4 : Nat) = 3 + 1 from rfl]
    exact sharkHuntLoop_succ_found wwidth wheight sBreed starve c rng w x y 3 0 cr nw k
      prey blk hwt hprey hbusy
  refine ⟨heq, fun hm => ?_⟩
  rw [heq] at hm ⊢
  exact sharkHuntLoop_fed wwidth wheight sBreed starve c rng w x y 3 1
    { cr with health := starve } nw (k + 1) rfl hm

/-- Witness for C7: a shark at (0,0) on a 2×1 ring sights the fish at (1,0)
whose next-buffer cell is already claimed. -/
theorem c7_hunter_fed_before_claim_witness :
    (sharkHuntLoop 2 1 150 150 0 (fun _ => 2)
        (setCell emptyWorld ⟨1, 0⟩
          { age := 2, health := 0, species := FISH, asset := fishcolor, chronon := 0 })
        0 0 4 0
        { age := 0, health := 7, species := SHARK, asset := sharkcolor, chronon := 0 }
        (setCell emptyWorld ⟨1, 0⟩
          { age := 9, health := 3, species := SHARK, asset := sharkcolor, chronon := 0 })
        0 =
      sharkHuntLoop 2 1 150 150 0 (fun _ => 2)
        (setCell emptyWorld ⟨1, 0⟩
          { age := 2, health := 0, species := FISH, asset := fishcolor, chronon := 0 })
        0 0 3 1
        { age := 0, health := 150, species := SHARK, asset := sharkcolor, chronon := 0 }
        (setCell emptyWorld ⟨1, 0⟩
          { age := 9, health := 3, species := SHARK, asset := sharkcolor, chronon := 0 })
        (0 + 1)) ∧
    ((sharkHuntLoop 2 1 150 150 0 (fun _ => 2)
        (setCell emptyWorld ⟨1, 0⟩
          { age := 2, health := 0, species := FISH, asset := fishcolor, chronon := 0 })
        0 0 4 0
        { age := 0, health := 7, species := SHARK, asset := sharkcolor, chronon := 0 }
        (setCell emptyWorld ⟨1, 0⟩
          { age := 9, health := 3, species := SHARK, asset := sharkcolor, chronon := 0 })
        0).2.2.1 = false →
      (sharkHuntLoop 2 1 150 150 0 (fun _ => 2)
        (setCell emptyWorld ⟨1, 0⟩
          { age := 2, health := 0, species := FISH, asset := fishcolor, chronon := 0 })
        0 0 4 0
        { age := 0, health := 7, species := SHARK, asset := sharkcolor, chronon := 0 }
        (setCell emptyWorld ⟨1, 0⟩
          { age := 9, health := 3, species := SHARK, asset := sharkcolor, chronon := 0 })
        0).2.2.2.2.health = 150) :=
  c7_hunter_fed_before_claim 2 1 150 150 0 (fun _ => 2)
    (setCell emptyWorld ⟨1, 0⟩
      { age := 2, health := 0, species := FISH, asset := fishcolor, chronon := 0 })
    0 0 { age := 0, health := 7, species := SHARK, asset := sharkcolor, chronon := 0 }
    (setCell emptyWorld ⟨1, 0⟩
      { age := 9, health := 3, species := SHARK, asset := sharkcolor, chronon := 0 })
    0 { age := 2, health := 0, species := FISH, asset := fishcolor, chronon := 0 }
    { age := 9, health := 3, species := SHARK, asset := sharkcolor, chronon := 0 }
    (by decide) rfl (by decide)

/-! ## C2: the 3×1 ring-world scenario -/

/-- On a 3×1 ring with a lone fish at (0,0), the movement loop either
leaves the next buffer untouched (all draws pointed back at the occupied
origin) or relocates the fish to exactly one of (1,0), (2,0); with an age
that does not trigger breeding, no offspring is placed. -/
theorem ringFishLoop (c : Int) (rng : Nat → Nat) (cr : creature)
    (hbr : ¬(cr.age > 0 ∧ cr.age.tmod 100 = 0)) :
    ∀ (fuel i k : Nat) (nw : World), nw ⟨1, 0⟩ = none → nw ⟨2, 0⟩ = none →
      (∃ k2, fishMoveLoop 3 1 100 c rng
          (setCell emptyWorld ⟨0, 0⟩
          { age := 0, health := 0, species := FISH, asset := fishcolor, chronon := 0 })
          0 0 cr fuel i nw k = (nw, k2, false, 0)) ∨
      (∃ k2, fishMoveLoop 3 1 100 c rng
          (setCell emptyWorld ⟨0, 0⟩
          { age := 0, health := 0, species := FISH, asset := fishcolor, chronon := 0 })
          0 0 cr fuel i nw k = (setCell nw ⟨1, 0⟩ cr, k2, true, 0)) ∨
      (∃ k2, fishMoveLoop 3 1 100 c rng
          (setCell emptyWorld ⟨0, 0⟩
          { age := 0, health := 0, species := FISH, asset := fishcolor, chronon := 0 })
          0 0 cr fuel i nw k = (setCell nw ⟨2, 0⟩ cr, k2, true, 0)) := by
  intro fuel
  induction fuel with
  | zero =>
    intro i k nw h1 h2
    exact Or.inl ⟨k, by simp [fishMoveLoop]⟩
  | succ n ih =>
    intro i k nw h1 h2
    have hj : (rng k + i) % 4 = 0 ∨ (rng k + i) % 4 = 1 ∨
        (rng k + i) % 4 = 2 ∨ (rng k + i) % 4 = 3 := by omega
    rcases hj with hj | hj | hj | hj
    · have heq : fishMoveLoop 3 1 100 c rng
          (setCell emptyWorld ⟨0, 0⟩
          { age := 0, health := 0, species := FISH, asset := fishcolor, chronon := 0 })
          0 0 cr (n + 1) i nw k =
          fishMoveLoop 3 1 100 c rng
          (setCell emptyWorld ⟨0, 0⟩
          { age := 0, health := 0, species := FISH, asset := fishcolor, chronon := 0 })
          0 0 cr n (i + 1) nw (k + 1) := by
        conv_lhs => simp only [fishMoveLoop]
        rw [hj]
        rfl
      rw [heq]
      exact ih (i + 1) (k + 1) nw h1 h2
    · have heq : fishMoveLoop 3 1 100 c rng
          (setCell emptyWorld ⟨0, 0⟩
          { age := 0, health := 0, species := FISH, asset := fishcolor, chronon := 0 })
          0 0 cr (n + 1) i nw k =
          fishMoveLoop 3 1 100 c rng
          (setCell emptyWorld ⟨0, 0⟩
          { age := 0, health := 0, species := FISH, asset := fishcolor, chronon := 0 })
          0 0 cr n (i + 1) nw (k + 1) := by
        conv_lhs => simp only [fishMoveLoop]
        rw [hj]
        rfl
      rw [heq]
      exact ih (i + 1) (k + 1) nw h1 h2
    · right; left
      refine ⟨k + 1, ?_⟩
      conv_lhs => simp only [fishMoveLoop]
      rw [hj]
      rw [show pickDir (adjacent 3 1 0 0) 2 = (⟨1, 0⟩ : coordinate) from rfl]
      rw [show (setCell emptyWorld ⟨0, 0⟩
          { age := 0, health := 0, species := FISH, asset := fishcolor, chronon := 0 }) (⟨1, 0⟩ : coordinate) = none from rfl]
      rw [tryClaim_of_none nw ⟨1, 0⟩ cr h1]
      simp only [if_neg hbr]
    · right; right
      refine ⟨k + 1, ?_⟩
      conv_lhs => simp only [fishMoveLoop]
      rw [hj]
      rw [show pickDir (adjacent 3 1 0 0) 3 = (⟨2, 0⟩ : coordinate) from rfl]
      rw [show (setCell emptyWorld ⟨0, 0⟩
          { age := 0, health := 0, species := FISH, asset := fishcolor, chronon := 0 }) (⟨2, 0⟩ : coordinate) = none from rfl]
      rw [tryClaim_of_none nw ⟨2, 0⟩ cr h2]
      simp only [if_neg hbr]

/-- Processing the lone fish of the 3×1 ring: the next buffer afterwards
holds exactly the aged fish, in one of the three cells. -/
theorem ringFishCell (sBreed starve c : Int) (rng : Nat → Nat) :
    (∃ k2, updateCell 3 1 100 sBreed starve c rng
        (setCell emptyWorld ⟨0, 0⟩
          { age := 0, health := 0, species := FISH, asset := fishcolor, chronon := 0 })
        0 0 emptyWorld 0 = (setCell emptyWorld ⟨0, 0⟩ { age := 1, health := 0, species := 0, asset := fishcolor, chronon := c }, k2, 0)) ∨
    (∃ k2, updateCell 3 1 100 sBreed starve c rng
        (setCell emptyWorld ⟨0, 0⟩
          { age := 0, health := 0, species := FISH, asset := fishcolor, chronon := 0 })
        0 0 emptyWorld 0 = (setCell emptyWorld ⟨1, 0⟩ { age := 1, health := 0, species := 0, asset := fishcolor, chronon := c }, k2, 0)) ∨
    (∃ k2, updateCell 3 1 100 sBreed starve c rng
        (setCell emptyWorld ⟨0, 0⟩
          { age := 0, health := 0, species := FISH, asset := fishcolor, chronon := 0 })
        0 0 emptyWorld 0 = (setCell emptyWorld ⟨2, 0⟩ { age := 1, health := 0, species := 0, asset := fishcolor, chronon := c }, k2, 0)) := by
  have hred : updateCell 3 1 100 sBreed starve c rng
        (setCell emptyWorld ⟨0, 0⟩
          { age := 0, health := 0, species := FISH, asset := fishcolor, chronon := 0 })
        0 0 emptyWorld 0 =
      fishStep 3 1 100 c rng
        (setCell emptyWorld ⟨0, 0⟩
          { age := 0, health := 0, species := FISH, asset := fishcolor, chronon := 0 })
        0 0 { age := 1, health := 0, species := 0, asset := fishcolor, chronon := c } emptyWorld 0 := rfl
  rw [hred]
  unfold fishStep
  rcases ringFishLoop c rng { age := 1, health := 0, species := 0, asset := fishcolor, chronon := c }
      (show ¬((1 : Int) > 0 ∧ (1 : Int).tmod 100 = 0) from by decide)
      4 0 0 emptyWorld rfl rfl with
    ⟨k2, heq⟩ | ⟨k2, heq⟩ | ⟨k2, heq⟩
  · left
    exact ⟨k2, by rw [heq]; rfl⟩
  · right; left
    exact ⟨k2, by rw [heq]; rfl⟩
  · right; right
    exact ⟨k2, by rw [heq]; rfl⟩

/-- C2 (amended): on the 3×1 ring with a lone age-0 Grazer at (0,0) and
breed threshold 100, after one tick — for every random stream, requested
worker count, and shark parameters — the grid holds exactly the fish aged
to 1, at (0,0), (1,0) or (2,0), the other two cells empty; it ends at (1,0)
or (2,0) only when some draw selects east or west, and stays at (0,0) when
all four draws select north/south. -/
theorem c2_ring_amended (sBreed starve K c : Int) (rng : Nat → Nat) :
    ((Chronon 3 1 100 sBreed starve K c (fun _ => rng)
        (setCell emptyWorld ⟨0, 0⟩
          { age := 0, health := 0, species := FISH, asset := fishcolor, chronon := 0 })
        emptyWorld).1 ⟨0, 0⟩ = some { age := 1, health := 0, species := FISH, asset := fishcolor, chronon := c } ∧
     (Chronon 3 1 100 sBreed starve K c (fun _ => rng)
        (setCell emptyWorld ⟨0, 0⟩
          { age := 0, health := 0, species := FISH, asset := fishcolor, chronon := 0 })
        emptyWorld).1 ⟨1, 0⟩ = none ∧
     (Chronon 3 1 100 sBreed starve K c (fun _ => rng)
        (setCell emptyWorld ⟨0, 0⟩
          { age := 0, health := 0, species := FISH, asset := fishcolor, chronon := 0 })
        emptyWorld).1 ⟨2, 0⟩ = none) ∨
    ((Chronon 3 1 100 sBreed starve K c (fun _ => rng)
        (setCell emptyWorld ⟨0, 0⟩
          { age := 0, health := 0, species := FISH, asset := fishcolor, chronon := 0 })
        emptyWorld).1 ⟨0, 0⟩ = none ∧
     (Chronon 3 1 100 sBreed starve K c (fun _ => rng)
        (setCell emptyWorld ⟨0, 0⟩
          { age := 0, health := 0, species := FISH, asset := fishcolor, chronon := 0 })
        emptyWorld).1 ⟨1, 0⟩ = some { age := 1, health := 0, species := FISH, asset := fishcolor, chronon := c } ∧
     (Chronon 3 1 100 sBreed starve K c (fun _ => rng)
        (setCell emptyWorld ⟨0, 0⟩
          { age := 0, health := 0, species := FISH, asset := fishcolor, chronon := 0 })
        emptyWorld).1 ⟨2, 0⟩ = none) ∨
    ((Chronon 3 1 100 sBreed starve K c (fun _ => rng)
        (setCell emptyWorld ⟨0, 0⟩
          { age := 0, health := 0, species := FISH, asset := fishcolor, chronon := 0 })
        emptyWorld).1 ⟨0, 0⟩ = none ∧
     (Chronon 3 1 100 sBreed starve K c (fun _ => rng)
        (setCell emptyWorld ⟨0, 0⟩
          { age := 0, health := 0, species := FISH, asset := fishcolor, chronon := 0 })
        emptyWorld).1 ⟨1, 0⟩ = none ∧
     (Chronon 3 1 100 sBreed starve K c (fun _ => rng)
        (setCell emptyWorld ⟨0, 0⟩
          { age := 0, health := 0, species := FISH, asset := fishcolor, chronon := 0 })
        emptyWorld).1 ⟨2, 0⟩ = some { age := 1, health := 0, species := FISH, asset := fishcolor, chronon := c }) := by
  rw [Chronon_height_one]
  have hc1 : ∀ (nw : World) (k : Nat),
      updateCell 3 1 100 sBreed starve c rng
        (setCell emptyWorld ⟨0, 0⟩
          { age := 0, health := 0, species := FISH, asset := fishcolor, chronon := 0 })
        1 0 nw k = (nw, k, 0) :=
    fun nw k => updateCell_of_none 3 1 100 sBreed starve c rng
      (setCell emptyWorld ⟨0, 0⟩
          { age := 0, health := 0, species := FISH, asset := fishcolor, chronon := 0 })
      1 0 nw k (by decide)
  have hc2 : ∀ (nw : World) (k : Nat),
      updateCell 3 1 100 sBreed starve c rng
        (setCell emptyWorld ⟨0, 0⟩
          { age := 0, health := 0, species := FISH, asset := fishcolor, chronon := 0 })
        2 0 nw k = (nw, k, 0) :=
    fun nw k => updateCell_of_none 3 1 100 sBreed starve c rng
      (setCell emptyWorld ⟨0, 0⟩
          { age := 0, health := 0, species := FISH, asset := fishcolor, chronon := 0 })
      2 0 nw k (by decide)
  rcases ringFishCell sBreed starve c rng with ⟨k2, hstep⟩ | ⟨k2, hstep⟩ | ⟨k2, hstep⟩
  · left
    have hslice : (updateSlice 3 1 100 sBreed starve c rng
        (setCell emptyWorld ⟨0, 0⟩
          { age := 0, health := 0, species := FISH, asset := fishcolor, chronon := 0 })
        0 1 (emptyWorld, 0, 0)).1 = setCell emptyWorld ⟨0, 0⟩ { age := 1, health := 0, species := 0, asset := fishcolor, chronon := c } := by
      unfold updateSlice updateRow
      rw [show List.range' 0 (1 - 0) = [0] from rfl, show List.range 3 = [0, 1, 2] from rfl]
      simp only [List.foldl_cons, List.foldl_nil, hstep, hc1, hc2]
    rw [hslice]
    refine ⟨setCell_self _ _ _, ?_, ?_⟩
    · rw [setCell_other _ _ _ _ (by decide)]
      rfl
    · rw [setCell_other _ _ _ _ (by decide)]
      rfl
  · right; left
    have hslice : (updateSlice 3 1 100 sBreed starve c rng
        (setCell emptyWorld ⟨0, 0⟩
          { age := 0, health := 0, species := FISH, asset := fishcolor, chronon := 0 })
        0 1 (emptyWorld, 0, 0)).1 = setCell emptyWorld ⟨1, 0⟩ { age := 1, health := 0, species := 0, asset := fishcolor, chronon := c } := by
      unfold updateSlice updateRow
      rw [show List.range' 0 (1 - 0) = [0] from rfl, show List.range 3 = [0, 1, 2] from rfl]
      simp only [List.foldl_cons, List.foldl_nil, hstep, hc1, hc2]
    rw [hslice]
    refine ⟨?_, setCell_self _ _ _, ?_⟩
    · rw [setCell_other _ _ _ _ (by decide)]
      rfl
    · rw [setCell_other _ _ _ _ (by decide)]
      rfl
  · right; right
    have hslice : (updateSlice 3 1 100 sBreed starve c rng
        (setCell emptyWorld ⟨0, 0⟩
          { age := 0, health := 0, species := FISH, asset := fishcolor, chronon := 0 })
        0 1 (emptyWorld, 0, 0)).1 = setCell emptyWorld ⟨2, 0⟩ { age := 1, health := 0, species := 0, asset := fishcolor, chronon := c } := by
      unfold updateSlice updateRow
      rw [show List.range' 0 (1 - 0) = [0] from rfl, show List.range 3 = [0, 1, 2] from rfl]
      simp only [List.foldl_cons, List.foldl_nil, hstep, hc1, hc2]
    rw [hslice]
    refine ⟨?_, ?_, setCell_self _ _ _⟩
    · rw [setCell_other _ _ _ _ (by decide)]
      rfl
    · rw [setCell_other _ _ _ _ (by decide)]
      rfl

/-- C2 counterexample: a random stream whose four draws all select
north/south (which on a height-1 ring point back at the fish's own occupied
cell) leaves the Grazer at (0,0); it does NOT reach (1,0) or (2,0). -/
theorem c2_ring_counterexample :
    (Chronon 3 1 100 150 150 1 2 (fun _ k => [0, 3, 2, 1].getD k 0)
        (setCell emptyWorld ⟨0, 0⟩
          { age := 0, health := 0, species := FISH, asset := fishcolor, chronon := 0 })
        emptyWorld).1 ⟨1, 0⟩ = none ∧
    (Chronon 3 1 100 150 150 1 2 (fun _ k => [0, 3, 2, 1].getD k 0)
        (setCell emptyWorld ⟨0, 0⟩
          { age := 0, health := 0, species := FISH, asset := fishcolor, chronon := 0 })
        emptyWorld).1 ⟨2, 0⟩ = none ∧
    (Chronon 3 1 100 150 150 1 2 (fun _ k => [0, 3, 2, 1].getD k 0)
        (setCell emptyWorld ⟨0, 0⟩
          { age := 0, health := 0, species := FISH, asset := fishcolor, chronon := 0 })
        emptyWorld).1 ⟨0, 0⟩ =
      some { age := 1, health := 0, species := FISH, asset := fishcolor, chronon := 2 } := by
  decide

/-! ## C3: initialization cannot fill a 2×2 grid -/

/-- On a 2×2 grid the placement loop draws `x, y` with `Intn(1)`, so every
candidate is (0,0); once (0,0) is occupied (and the grid is not full, so
the capacity break is not taken), the loop retries forever — `none` for
every fuel bound. -/
theorem placeLoop_stuck (cr : creature) (pos : Nat → Nat) (b : creature) :
    ∀ (fuel : Nat) (wm : World) (pop k : Nat), wm ⟨0, 0⟩ = some b → pop ≠ 4 →
      placeLoop 2 2 cr pos fuel wm pop k = none := by
  intro fuel
  induction fuel with
  | zero => intro wm pop k h hp; rfl
  | succ n ih =>
    intro wm pop k h hp
    simp only [placeLoop]
    rw [if_neg (show ¬pop = 2 * 2 by omega)]
    simp only [show (2 : Nat) - 1 = 1 from rfl, Nat.mod_one]
    rw [h]
    exact ih wm pop (k + 2) h hp

/-- Once some fish occupies (0,0) of the 2×2 grid and the grid is not full,
every remaining placement diverges. -/
theorem initFish_stuck (ageS pos : Nat → Nat) (b : creature) :
    ∀ (m : Nat), 1 ≤ m → ∀ (fuel : Nat) (wm : World) (pop k : Nat),
      wm ⟨0, 0⟩ = some b → pop ≠ 4 →
      initFish 2 2 100 ageS pos m fuel wm pop k = none := by
  intro m hm
  cases m with
  | zero => omega
  | succ m0 =>
    intro fuel wm pop k h hp
    simp only [initFish]
    rw [placeLoop_stuck _ pos b fuel wm pop k h hp]

/-- The first placement on the empty 2×2 grid lands on (0,0) and succeeds
immediately. -/
theorem initFish_first (ageS pos : Nat → Nat) : ∀ (m fuel : Nat),
    initFish 2 2 100 ageS pos (m + 1) (fuel + 1) emptyWorld 0 0 =
      initFish 2 2 100 ageS pos m (fuel + 1)
        (setCell emptyWorld ⟨0, 0⟩
          { age := Int.ofNat (ageS m % 100), health := 0, species := FISH,
            asset := fishcolor, chronon := 0 }) 1 2 := by
  intro m fuel
  simp only [initFish]
  have h1 : placeLoop 2 2
      { age := Int.ofNat (ageS m % 100), health := 0, species := FISH,
        asset := fishcolor, chronon := 0 } pos (fuel + 1) emptyWorld 0 0 =
      some (setCell emptyWorld ⟨0, 0⟩
        { age := Int.ofNat (ageS m % 100), health := 0, species := FISH,
          asset := fishcolor, chronon := 0 }, 1, 2) := by
    simp only [placeLoop]
    rw [if_neg (show ¬(0 = 2 * 2) by omega)]
    simp only [show (2 : Nat) - 1 = 1 from rfl, Nat.mod_one]
    rfl
  rw [h1]

/-- C3 (divergence witness for the code bug): asking `initWator`'s fish
phase for 2 fish on a 2×2 grid — capacity 4, so the claim's precondition
`initialGrazers + initialHunters ≤ width*height` holds — never terminates:
`rand.Intn(width-1)`/`rand.Intn(height-1)` can only ever draw cell (0,0),
so the second placement retries forever (`none` for every fuel bound and
every random stream), instead of returning a grid with exactly 2 Grazers. -/
theorem c3_init_diverges : ∀ (fuel : Nat) (ageS pos : Nat → Nat),
    initFish 2 2 100 ageS pos 2 fuel emptyWorld 0 0 = none := by
  intro fuel ageS pos
  cases fuel with
  | zero => rfl
  | succ n =>
    calc initFish 2 2 100 ageS pos 2 (n + 1) emptyWorld 0 0
        = initFish 2 2 100 ageS pos 1 (n + 1)
            (setCell emptyWorld ⟨0, 0⟩
              { age := Int.ofNat (ageS 1 % 100), health := 0, species := FISH,
                asset := fishcolor, chronon := 0 }) 1 2 := initFish_first ageS pos 1 n
      _ = none := initFish_stuck ageS pos
            { age := Int.ofNat (ageS 1 % 100), health := 0, species := FISH,
              asset := fishcolor, chronon := 0 } 1 (by omega) (n + 1) _ 1 2
            (setCell_self _ _ _) (by omega)

/-! ## C4: occupancy counting -/

/-- Sums distribute over pointwise addition of mapped functions. -/
theorem sum_map_add (l : List Nat) (f g : Nat → Nat) :
    (l.map (fun x => f x + g x)).sum = (l.map f).sum + (l.map g).sum := by
  induction l with
  | nil => rfl
  | cons a as ih => simp [ih]; omega

/-- Row sum of the single-cell indicator. -/
theorem indicator_row_sum (W y px py : Nat) :
    ((List.range W).map
      (fun x => if (⟨x, y⟩ : coordinate) = ⟨px, py⟩ then 1 else 0)).sum
      = if px < W ∧ y = py then 1 else 0 := by
  induction W with
  | zero => simp
  | succ n ih =>
    rw [List.range_succ, List.map_append, List.sum_append, ih]
    simp only [List.map_cons, List.map_nil, List.sum_cons, List.sum_nil,
      coordinate.mk.injEq]
    split_ifs <;> omega

/-- Column sum of the single-row indicator. -/
theorem indicator_col_sum0 (H a : Nat) :
    ((List.range H).map (fun v => if v = a then 1 else 0)).sum
      = if a < H then 1 else 0 := by
  induction H with
  | zero => simp
  | succ n ih =>
    rw [List.range_succ, List.map_append, List.sum_append, ih]
    simp only [List.map_cons, List.map_nil, List.sum_cons, List.sum_nil]
    split_ifs <;> omega

/-- Column sum of a guarded single-row indicator. -/
theorem indicator_col_sum (H a : Nat) (P : Prop) [Decidable P] :
    ((List.range H).map (fun v => if P ∧ v = a then 1 else 0)).sum
      = if P ∧ a < H then 1 else 0 := by
  by_cases hP : P
  · simp only [hP, true_and]
    exact indicator_col_sum0 H a
  · simp [hP]

/-- Writing one cell raises the occupancy count by at most one. -/
theorem count_setCell_le (wwidth wheight : Nat) (nw : World) (px py : Nat)
    (cr : creature) :
    countOccupied wwidth wheight (setCell nw ⟨px, py⟩ cr) ≤
      countOccupied wwidth wheight nw + 1 := by
  have hpoint : ∀ x y, cellCount (setCell nw ⟨px, py⟩ cr) x y ≤
      cellCount nw x y + (if (⟨x, y⟩ : coordinate) = ⟨px, py⟩ then 1 else 0) := by
    intro x y
    unfold cellCount setCell
    by_cases hxy : (⟨x, y⟩ : coordinate) = ⟨px, py⟩
    · rw [if_pos hxy, if_pos hxy]
      split_ifs <;> omega
    · rw [if_neg hxy, if_neg hxy]
      omega
  have hrow : ∀ y, rowCount wwidth (setCell nw ⟨px, py⟩ cr) y ≤
      rowCount wwidth nw y + (if px < wwidth ∧ y = py then 1 else 0) := by
    intro y
    rw [← indicator_row_sum wwidth y px py]
    unfold rowCount
    rw [← sum_map_add]
    exact List.sum_le_sum (fun x _ => hpoint x y)
  unfold countOccupied
  calc ((List.range wheight).map (fun y => rowCount wwidth (setCell nw ⟨px, py⟩ cr) y)).sum
      ≤ ((List.range wheight).map
          (fun y => rowCount wwidth nw y + (if px < wwidth ∧ y = py then 1 else 0))).sum :=
        List.sum_le_sum (fun y _ => hrow y)
    _ = ((List.range wheight).map (fun y => rowCount wwidth nw y)).sum +
          ((List.range wheight).map (fun y => if px < wwidth ∧ y = py then 1 else 0)).sum :=
        sum_map_add _ _ _
    _ ≤ ((List.range wheight).map (fun y => rowCount wwidth nw y)).sum + 1 := by
        rw [indicator_col_sum wheight py (px < wwidth)]
        split_ifs <;> omega

/-- Overwriting an already-occupied cell leaves the occupancy count
unchanged (only the stored creature value changes). -/
theorem count_setCell_occupied (wwidth wheight : Nat) (nw : World) (p : coordinate)
    (cr b : creature) (h : nw p = some b) :
    countOccupied wwidth wheight (setCell nw p cr) = countOccupied wwidth wheight nw := by
  have hpoint : ∀ x y, cellCount (setCell nw p cr) x y = cellCount nw x y := by
    intro x y
    unfold cellCount setCell
    by_cases hxy : (⟨x, y⟩ : coordinate) = p
    · rw [if_pos hxy, hxy, h]
      rfl
    · rw [if_neg hxy]
  unfold countOccupied rowCount
  simp only [hpoint]

/-- A claim raises the occupancy count by at most its success flag. -/
theorem count_tryClaim_le (wwidth wheight : Nat) (nw : World) (p : coordinate)
    (cr : creature) :
    countOccupied wwidth wheight (tryClaim nw p cr).2 ≤
      countOccupied wwidth wheight nw +
        (if (tryClaim nw p cr).1 then 1 else 0) := by
  unfold tryClaim
  cases hp : nw p with
  | none =>
    simp only [if_pos]
    obtain ⟨px, py⟩ := p
    exact count_setCell_le wwidth wheight nw px py cr
  | some b => simp

/-- A failed claim leaves the buffer unchanged. -/
theorem tryClaim_fail_eq (nw : World) (p : coordinate) (cr : creature)
    (h : (tryClaim nw p cr).1 = false) : (tryClaim nw p cr).2 = nw := by
  unfold tryClaim at h ⊢
  cases hp : nw p with
  | none => rw [hp] at h; simp at h
  | some b => rfl

/-- The cleared buffer holds no creatures. -/
theorem countOccupied_empty (wwidth wheight : Nat) :
    countOccupied wwidth wheight emptyWorld = 0 := by
  unfold countOccupied rowCount cellCount emptyWorld
  rw [List.sum_eq_zero]
  intro v hv
  rw [List.mem_map] at hv
  obtain ⟨y, _, hy⟩ := hv
  rw [← hy, List.sum_eq_zero]
  intro u hu
  rw [List.mem_map] at hu
  obtain ⟨x, _, hx⟩ := hu
  simp at hx
  omega

/-- `count_setCell_le` for an arbitrary coordinate. -/
theorem count_setCell_le' (wwidth wheight : Nat) (nw : World) (p : coordinate)
    (cr : creature) :
    countOccupied wwidth wheight (setCell nw p cr) ≤
      countOccupied wwidth wheight nw + 1 := by
  obtain ⟨px, py⟩ := p
  exact count_setCell_le wwidth wheight nw px py cr

/-- The fish movement loop adds at most one parent placement (its `moved`
flag) plus its successful breeding placements to the occupancy count. -/
theorem fishMoveLoop_count (wwidth wheight : Nat) (fBreed c : Int)
    (rng : Nat → Nat) (w : World) (x y : Nat) (cr : creature) :
    ∀ (fuel i : Nat) (nw : World) (k : Nat),
      countOccupied wwidth wheight
          (fishMoveLoop wwidth wheight fBreed c rng w x y cr fuel i nw k).1 ≤
        countOccupied wwidth wheight nw +
        (if (fishMoveLoop wwidth wheight fBreed c rng w x y cr fuel i nw k).2.2.1
         then 1 else 0) +
        (fishMoveLoop wwidth wheight fBreed c rng w x y cr fuel i nw k).2.2.2 := by
  intro fuel
  induction fuel with
  | zero => intro i nw k; simp [fishMoveLoop]
  | succ n ih =>
    intro i nw k
    simp only [fishMoveLoop]
    cases hw : w (pickDir (adjacent wwidth wheight x y) ((rng k + i) % 4)) with
    | some prey => exact ih (i + 1) nw (k + 1)
    | none =>
      cases hc : tryClaim nw (pickDir (adjacent wwidth wheight x y) ((rng k + i) % 4)) cr with
      | mk ok nw1 =>
        cases ok with
        | false =>
          have hnw1 : nw1 = nw := by
            have h := tryClaim_fail_eq nw
              (pickDir (adjacent wwidth wheight x y) ((rng k + i) % 4)) cr (by rw [hc])
            rw [hc] at h
            exact h
          rw [hnw1]
          exact ih (i + 1) nw (k + 1)
        | true =>
          have hempty : nw (pickDir (adjacent wwidth wheight x y) ((rng k + i) % 4)) = none := by
            apply tryClaim_success_empty nw _ cr
            rw [hc]
          have hnw1 : nw1 = setCell nw
              (pickDir (adjacent wwidth wheight x y) ((rng k + i) % 4)) cr := by
            have h : (tryClaim nw
                (pickDir (adjacent wwidth wheight x y) ((rng k + i) % 4)) cr).2 = nw1 := by
              rw [hc]
            rw [tryClaim_of_none nw _ cr hempty] at h
            exact h.symm
          have h1 : countOccupied wwidth wheight nw1 ≤
              countOccupied wwidth wheight nw + 1 := by
            rw [hnw1]
            exact count_setCell_le' wwidth wheight nw _ cr
          dsimp only
          by_cases hbr : cr.age > 0 ∧ cr.age.tmod fBreed = 0
          · rw [if_pos hbr]
            cases hc2 : tryClaim nw1 ⟨x, y⟩
                { age := 0, health := 0, species := FISH, asset := fishcolor, chronon := c } with
            | mk ok2 nw2 =>
              have h2 := count_tryClaim_le wwidth wheight nw1 ⟨x, y⟩
                { age := 0, health := 0, species := FISH, asset := fishcolor, chronon := c }
              rw [hc2] at h2
              dsimp only
              cases ok2 <;> simp at h2 ⊢ <;> omega
          · rw [if_neg hbr]
            dsimp only
            simp only [if_true]
            omega

/-- The shark movement loop adds at most one parent placement plus its
successful breeding placements to the occupancy count (the energy-split
overwrite of the freshly claimed cell does not change occupancy). -/
theorem sharkMoveLoop_count (wwidth wheight : Nat) (sBreed c : Int)
    (rng : Nat → Nat) (w : World) (x y : Nat) (cr : creature) :
    ∀ (fuel i : Nat) (nw : World) (k : Nat),
      countOccupied wwidth wheight
          (sharkMoveLoop wwidth wheight sBreed c rng w x y cr fuel i nw k).1 ≤
        countOccupied wwidth wheight nw +
        (if (sharkMoveLoop wwidth wheight sBreed c rng w x y cr fuel i nw k).2.2.1
         then 1 else 0) +
        (sharkMoveLoop wwidth wheight sBreed c rng w x y cr fuel i nw k).2.2.2 := by
  intro fuel
  induction fuel with
  | zero => intro i nw k; simp [sharkMoveLoop]
  | succ n ih =>
    intro i nw k
    simp only [sharkMoveLoop]
    cases hw : w (pickDir (adjacent wwidth wheight x y) ((rng k + i) % 4)) with
    | some prey => exact ih (i + 1) nw (k + 1)
    | none =>
      cases hc : tryClaim nw (pickDir (adjacent wwidth wheight x y) ((rng k + i) % 4)) cr with
      | mk ok nw1 =>
        cases ok with
        | false =>
          have hnw1 : nw1 = nw := by
            have h := tryClaim_fail_eq nw
              (pickDir (adjacent wwidth wheight x y) ((rng k + i) % 4)) cr (by rw [hc])
            rw [hc] at h
            exact h
          rw [hnw1]
          exact ih (i + 1) nw (k + 1)
        | true =>
          have hempty : nw (pickDir (adjacent wwidth wheight x y) ((rng k + i) % 4)) = none := by
            apply tryClaim_success_empty nw _ cr
            rw [hc]
          have hnw1 : nw1 = setCell nw
              (pickDir (adjacent wwidth wheight x y) ((rng k + i) % 4)) cr := by
            have h : (tryClaim nw
                (pickDir (adjacent wwidth wheight x y) ((rng k + i) % 4)) cr).2 = nw1 := by
              rw [hc]
            rw [tryClaim_of_none nw _ cr hempty] at h
            exact h.symm
          have h1 : countOccupied wwidth wheight nw1 ≤
              countOccupied wwidth wheight nw + 1 := by
            rw [hnw1]
            exact count_setCell_le' wwidth wheight nw _ cr
          have hocc : nw1 (pickDir (adjacent wwidth wheight x y) ((rng k + i) % 4))
              = some cr := by
            rw [hnw1]
            exact setCell_self nw _ cr
          dsimp only
          by_cases hbr : cr.age > 0 ∧ cr.age.tmod sBreed = 0
          · rw [if_pos hbr]
            have hover : countOccupied wwidth wheight
                (setCell nw1 (pickDir (adjacent wwidth wheight x y) ((rng k + i) % 4))
                  { cr with health := cr.health - cr.health.tdiv 2 }) =
                countOccupied wwidth wheight nw1 :=
              count_setCell_occupied wwidth wheight nw1 _ _ cr hocc
            cases hc2 : tryClaim
                (setCell nw1 (pickDir (adjacent wwidth wheight x y) ((rng k + i) % 4))
                  { cr with health := cr.health - cr.health.tdiv 2 }) ⟨x, y⟩
                { age := 0, health := cr.health.tdiv 2, species := SHARK,
                  asset := sharkcolor, chronon := c } with
            | mk ok2 nw3 =>
              have h2 := count_tryClaim_le wwidth wheight
                (setCell nw1 (pickDir (adjacent wwidth wheight x y) ((rng k + i) % 4))
                  { cr with health := cr.health - cr.health.tdiv 2 }) ⟨x, y⟩
                { age := 0, health := cr.health.tdiv 2, species := SHARK,
                  asset := sharkcolor, chronon := c }
              rw [hc2] at h2
              rw [hover] at h2
              dsimp only
              cases ok2 <;> simp at h2 ⊢ <;> omega
          · rw [if_neg hbr]
            dsimp only
            simp only [if_true]
            omega

/-- The shark hunting loop adds at most one parent placement plus its
successful breeding placements to the occupancy count. -/
theorem sharkHuntLoop_count (wwidth wheight : Nat) (sBreed starve c : Int)
    (rng : Nat → Nat) (w : World) (x y : Nat) :
    ∀ (fuel i : Nat) (cr : creature) (nw : World) (k : Nat),
      countOccupied wwidth wheight
          (sharkHuntLoop wwidth wheight sBreed starve c rng w x y fuel i cr nw k).1 ≤
        countOccupied wwidth wheight nw +
        (if (sharkHuntLoop wwidth wheight sBreed starve c rng w x y fuel i cr nw k).2.2.1
         then 1 else 0) +
        (sharkHuntLoop wwidth wheight sBreed starve c rng w x y fuel i cr nw k).2.2.2.1 := by
  intro fuel
  induction fuel with
  | zero => intro i cr nw k; simp [sharkHuntLoop]
  | succ n ih =>
    intro i cr nw k
    simp only [sharkHuntLoop]
    cases hw : w (pickDir (adjacent wwidth wheight x y) ((rng k + i) % 4)) with
    | none => exact ih (i + 1) cr nw (k + 1)
    | some prey =>
      dsimp only
      by_cases hsp : prey.species = FISH
      · rw [if_pos hsp]
        cases hc : tryClaim nw (pickDir (adjacent wwidth wheight x y) ((rng k + i) % 4))
            { cr with health := starve } with
        | mk ok nw1 =>
          cases ok with
          | false =>
            have hnw1 : nw1 = nw := by
              have h := tryClaim_fail_eq nw
                (pickDir (adjacent wwidth wheight x y) ((rng k + i) % 4))
                { cr with health := starve } (by rw [hc])
              rw [hc] at h
              exact h
            rw [hnw1]
            exact ih (i + 1) { cr with health := starve } nw (k + 1)
          | true =>
            have hempty : nw (pickDir (adjacent wwidth wheight x y) ((rng k + i) % 4))
                = none := by
              apply tryClaim_success_empty nw _ { cr with health := starve }
              rw [hc]
            have hnw1 : nw1 = setCell nw
                (pickDir (adjacent wwidth wheight x y) ((rng k + i) % 4))
                { cr with health := starve } := by
              have h : (tryClaim nw
                  (pickDir (adjacent wwidth wheight x y) ((rng k + i) % 4))
                  { cr with health := starve }).2 = nw1 := by
                rw [hc]
              rw [tryClaim_of_none nw _ { cr with health := starve } hempty] at h
              exact h.symm
            have h1 : countOccupied wwidth wheight nw1 ≤
                countOccupied wwidth wheight nw + 1 := by
              rw [hnw1]
              exact count_setCell_le' wwidth wheight nw _ { cr with health := starve }
            have hocc : nw1 (pickDir (adjacent wwidth wheight x y) ((rng k + i) % 4))
                = some { cr with health := starve } := by
              rw [hnw1]
              exact setCell_self nw _ { cr with health := starve }
            dsimp only
            by_cases hbr : cr.age > 0 ∧ cr.age.tmod sBreed = 0
            · rw [if_pos hbr]
              have hover : countOccupied wwidth wheight
                  (setCell nw1 (pickDir (adjacent wwidth wheight x y) ((rng k + i) % 4))
                    { cr with health := starve - starve.tdiv 2 }) =
                  countOccupied wwidth wheight nw1 :=
                count_setCell_occupied wwidth wheight nw1 _ _ { cr with health := starve } hocc
              cases hc2 : tryClaim
                  (setCell nw1 (pickDir (adjacent wwidth wheight x y) ((rng k + i) % 4))
                    { cr with health := starve - starve.tdiv 2 }) ⟨x, y⟩
                  { age := 0, health := starve.tdiv 2, species := SHARK,
                    asset := sharkcolor, chronon := c } with
              | mk ok2 nw3 =>
                have h2 := count_tryClaim_le wwidth wheight
                  (setCell nw1 (pickDir (adjacent wwidth wheight x y) ((rng k + i) % 4))
                    { cr with health := starve - starve.tdiv 2 }) ⟨x, y⟩
                  { age := 0, health := starve.tdiv 2, species := SHARK,
                    asset := sharkcolor, chronon := c }
                rw [hc2] at h2
                rw [hover] at h2
                dsimp only
                cases ok2 <;> simp at h2 ⊢ <;> omega
            · rw [if_neg hbr]
              dsimp only
              simp only [if_true]
              omega
      · rw [if_neg hsp]
        exact ih (i + 1) cr nw (k + 1)

/-- The whole fish branch (movement plus stay-in-place) adds at most
`1 + breeds` to the occupancy count. -/
theorem fishStep_count (wwidth wheight : Nat) (fBreed c : Int) (rng : Nat → Nat)
    (w : World) (x y : Nat) (cr : creature) (nw : World) (k : Nat) :
    countOccupied wwidth wheight (fishStep wwidth wheight fBreed c rng w x y cr nw k).1 ≤
      countOccupied wwidth wheight nw + 1 +
        (fishStep wwidth wheight fBreed c rng w x y cr nw k).2.2 := by
  unfold fishStep
  rcases hf : fishMoveLoop wwidth wheight fBreed c rng w x y cr 4 0 nw k
    with ⟨nw1, k1, moved, bb⟩
  have h := fishMoveLoop_count wwidth wheight fBreed c rng w x y cr 4 0 nw k
  rw [hf] at h
  cases moved with
  | true =>
    simp at h ⊢
    omega
  | false =>
    simp at h
    have h2 := count_tryClaim_le wwidth wheight nw1 ⟨x, y⟩ cr
    have hA : (if (tryClaim nw1 ⟨x, y⟩ cr).1 then 1 else 0) ≤ 1 := by
      split_ifs <;> omega
    simp
    omega

/-- The whole shark branch (hunt, movement, stay-in-place) adds at most
`1 + breeds` to the occupancy count. -/
theorem sharkStep_count (wwidth wheight : Nat) (sBreed starve c : Int)
    (rng : Nat → Nat) (w : World) (x y : Nat) (cr1 : creature) (nw : World) (k : Nat) :
    countOccupied wwidth wheight
        (sharkStep wwidth wheight sBreed starve c rng w x y cr1 nw k).1 ≤
      countOccupied wwidth wheight nw + 1 +
        (sharkStep wwidth wheight sBreed starve c rng w x y cr1 nw k).2.2 := by
  unfold sharkStep
  rcases hh : sharkHuntLoop wwidth wheight sBreed starve c rng w x y 4 0 cr1 nw k
    with ⟨nw1, k1, moved, b1, cr2⟩
  have h := sharkHuntLoop_count wwidth wheight sBreed starve c rng w x y 4 0 cr1 nw k
  rw [hh] at h
  cases moved with
  | true =>
    simp at h ⊢
    omega
  | false =>
    simp at h
    simp
    rcases hm : sharkMoveLoop wwidth wheight sBreed c rng w x y cr2 4 0 nw1 k1
      with ⟨nw2, k2, moved2, b2⟩
    have h2 := sharkMoveLoop_count wwidth wheight sBreed c rng w x y cr2 4 0 nw1 k1
    rw [hm] at h2
    cases moved2 with
    | true =>
      simp at h2 ⊢
      omega
    | false =>
      simp at h2
      have h3 := count_tryClaim_le wwidth wheight nw2 ⟨x, y⟩ cr2
      have hA : (if (tryClaim nw2 ⟨x, y⟩ cr2).1 then 1 else 0) ≤ 1 := by
        split_ifs <;> omega
      simp
      omega

/-- Processing one source cell adds at most that cell's occupancy plus the
number of successful breeding placements to the occupancy count. -/
theorem updateCell_count (wwidth wheight : Nat) (fBreed sBreed starve c : Int)
    (rng : Nat → Nat) (w : World) (x y : Nat) (nw : World) (k : Nat) :
    countOccupied wwidth wheight
        (updateCell wwidth wheight fBreed sBreed starve c rng w x y nw k).1 ≤
      countOccupied wwidth wheight nw + cellCount w x y +
        (updateCell wwidth wheight fBreed sBreed starve c rng w x y nw k).2.2 := by
  unfold updateCell
  cases hw : w ⟨x, y⟩ with
  | none =>
    have hcell : cellCount w x y = 0 := by
      unfold cellCount
      rw [hw]
      rfl
    simp [hcell]
  | some cr0 =>
    have hcell : cellCount w x y = 1 := by
      unfold cellCount
      rw [hw]
      rfl
    rw [hcell]
    dsimp only
    cases hsp : cr0.species with
    | zero => exact fishStep_count wwidth wheight fBreed c rng w x y _ nw k
    | succ m =>
      cases m with
      | zero =>
        dsimp only
        by_cases hdead : cr0.health - 1 ≤ 0
        · rw [if_pos hdead]
          simp
        · rw [if_neg hdead]
          exact sharkStep_count wwidth wheight sBreed starve c rng w x y _ nw k
      | succ m2 => simp

/-- One scanned row adds at most the row's source occupancy plus the new
breeding placements to the occupancy count. -/
theorem updateRow_count (wwidth wheight : Nat) (fBreed sBreed starve c : Int)
    (rng : Nat → Nat) (w : World) (y : Nat) :
    ∀ (acc : World × Nat × Nat),
      countOccupied wwidth wheight
          (updateRow wwidth wheight fBreed sBreed starve c rng w y acc).1 + acc.2.2 ≤
        countOccupied wwidth wheight acc.1 + rowCount wwidth w y +
          (updateRow wwidth wheight fBreed sBreed starve c rng w y acc).2.2 := by
  unfold updateRow rowCount
  generalize List.range wwidth = xs
  induction xs with
  | nil => intro acc; simp
  | cons a as ih =>
    intro acc
    rw [List.foldl_cons, List.map_cons, List.sum_cons]
    have hstep := updateCell_count wwidth wheight fBreed sBreed starve c rng w a y
      acc.1 acc.2.1
    rcases hu : updateCell wwidth wheight fBreed sBreed starve c rng w a y acc.1 acc.2.1
      with ⟨nw1, k1, b1⟩
    rw [hu] at hstep
    simp only [hu]
    have hih := ih (nw1, k1, acc.2.2 + b1)
    simp at hih hstep ⊢
    omega

/-- One worker's scan adds at most its rows' source occupancy plus the new
breeding placements to the occupancy count. -/
theorem updateSlice_count (wwidth wheight : Nat) (fBreed sBreed starve c : Int)
    (rng : Nat → Nat) (w : World) (startY endY : Nat) :
    ∀ (acc : World × Nat × Nat),
      countOccupied wwidth wheight
          (updateSlice wwidth wheight fBreed sBreed starve c rng w startY endY acc).1
          + acc.2.2 ≤
        countOccupied wwidth wheight acc.1 +
          ((List.range' startY (endY - startY)).map (fun v => rowCount wwidth w v)).sum +
          (updateSlice wwidth wheight fBreed sBreed starve c rng w startY endY acc).2.2 := by
  unfold updateSlice
  generalize List.range' startY (endY - startY) = ys
  induction ys with
  | nil => intro acc; simp
  | cons a as ih =>
    intro acc
    simp only [List.foldl_cons, List.map_cons, List.sum_cons]
    have hrow := updateRow_count wwidth wheight fBreed sBreed starve c rng w a acc
    rcases hr : updateRow wwidth wheight fBreed sBreed starve c rng w a acc
      with ⟨nw1, k1, bt⟩
    rw [hr] at hrow
    have hih := ih (nw1, k1, bt)
    simp at hih hrow ⊢
    omega

/-- The sequential worker loop adds at most the scanned rows' source
occupancy plus the new breeding placements to the occupancy count. -/
theorem runWorkers_count (wwidth wheight : Nat) (fBreed sBreed starve c : Int)
    (workers : Nat → Nat → Nat) (w : World) (n r : Nat) :
    ∀ (is : List Nat) (acc : World × Nat),
      countOccupied wwidth wheight
          (runWorkers wwidth wheight fBreed sBreed starve c workers w n r is acc).1
          + acc.2 ≤
        countOccupied wwidth wheight acc.1 +
          (is.map (fun i =>
            ((List.range' (i * r) ((if i = n - 1 then wheight else i * r + r) - i * r)).map
              (fun v => rowCount wwidth w v)).sum)).sum +
          (runWorkers wwidth wheight fBreed sBreed starve c workers w n r is acc).2 := by
  unfold runWorkers
  intro is
  induction is with
  | nil => intro acc; simp
  | cons a as ih =>
    intro acc
    rw [List.foldl_cons, List.map_cons, List.sum_cons]
    have hslice := updateSlice_count wwidth wheight fBreed sBreed starve c (workers a) w
      (a * r) (if a = n - 1 then wheight else a * r + r) (acc.1, 0, acc.2)
    rcases hs : updateSlice wwidth wheight fBreed sBreed starve c (workers a) w
        (a * r) (if a = n - 1 then wheight else a * r + r) (acc.1, 0, acc.2)
      with ⟨nw1, k1, b1⟩
    rw [hs] at hslice
    simp only [hs]
    have hih := ih (nw1, b1)
    simp at hih hslice ⊢
    omega

/-- Joining the per-worker row blocks: when the blocks tile the grid
(`n * r ≤ wheight`, last block extended to the bottom), the blockwise sum
of row occupancies from index `j` on equals the plain row-range sum from
row `j * r` to the bottom. -/
theorem blocks_join (wwidth : Nat) (w : World) (wheight n r : Nat)
    (hnr : n * r ≤ wheight) :
    ∀ (m j : Nat), j + m = n → 1 ≤ m →
      ((List.range' j m).map (fun i =>
        ((List.range' (i * r) ((if i = n - 1 then wheight else i * r + r) - i * r)).map
          (fun v => rowCount wwidth w v)).sum)).sum =
      ((List.range' (j * r) (wheight - j * r)).map
        (fun v => rowCount wwidth w v)).sum := by
  intro m
  induction m with
  | zero => intro j hj h1; omega
  | succ m ih =>
    intro j hj _
    rcases Nat.eq_zero_or_pos m with hm | hm
    · subst hm
      have hjn : j = n - 1 := by omega
      simp only [List.range'_succ, List.range', List.map_cons, List.map_nil,
        List.sum_cons, List.sum_nil, Nat.add_zero]
      rw [if_pos hjn]
    · have hjn : j ≠ n - 1 := by omega
      rw [List.range'_succ, List.map_cons, List.sum_cons]
      have hih := ih (j + 1) (by omega) hm
      rw [if_neg hjn]
      have hrr : j * r + r - j * r = r := by omega
      rw [hrr]
      have hj1 : (j + 1) * r = j * r + r := by ring
      rw [hj1] at hih
      rw [hih, ← List.sum_append, ← List.map_append]
      have hle : j * r + r ≤ wheight := by
        have h1 : (j + 1) * r ≤ n * r := Nat.mul_le_mul_right r (by omega)
        rw [hj1] at h1
        omega
      have hA := List.range'_append (j * r) r (wheight - (j * r + r)) 1
      simp only [Nat.one_mul] at hA
      rw [show wheight - (j * r + r) + r = wheight - j * r from by omega] at hA
      rw [hA]

/-- The whole worker fold starting from the cleared next buffer: the final
occupancy is bounded by the source occupancy plus the successful breeding
placements. -/
theorem runWorkers_total_count (wwidth wheight : Nat)
    (fBreed sBreed starve c : Int) (workers : Nat → Nat → Nat) (w : World)
    (n r : Nat) (hn : 1 ≤ n) (hnr : n * r ≤ wheight) :
    countOccupied wwidth wheight
        (runWorkers wwidth wheight fBreed sBreed starve c workers w n r
          (List.range n) (emptyWorld, 0)).1 ≤
      countOccupied wwidth wheight w +
        (runWorkers wwidth wheight fBreed sBreed starve c workers w n r
          (List.range n) (emptyWorld, 0)).2 := by
  have hrw := runWorkers_count wwidth wheight fBreed sBreed starve c workers w n r
    (List.range n) (emptyWorld, 0)
  have hjoin := blocks_join wwidth w wheight n r hnr n 0 (by omega) hn
  rw [List.range_eq_range'] at hrw
  simp only [Nat.zero_mul, Nat.zero_add, Nat.sub_zero] at hjoin
  rw [hjoin, ← List.range_eq_range'] at hrw
  have hemp : countOccupied wwidth wheight emptyWorld = 0 := countOccupied_empty _ _
  have hco : ((List.range wheight).map (fun v => rowCount wwidth w v)).sum =
      countOccupied wwidth wheight w := rfl
  rw [hemp, ← List.range_eq_range', hco] at hrw
  omega

/-- C4: amended population bound.  Over one full tick (any grid size, any
parameters, any worker count, any random streams), the number of occupied
cells of the produced world never exceeds the occupied cells of the source
world plus the tick's successful-breeding counter: population grows only
through breeding.  (The claim's parenthetical that it shrinks only through
starvation is refuted separately: predation and losing the final
stay-in-place claim also remove creatures.) -/
theorem c4_population_bound (wwidth wheight : Nat)
    (fBreed sBreed starve nThreads c : Int) (workers : Nat → Nat → Nat)
    (world : World) :
    countOccupied wwidth wheight
        (Chronon wwidth wheight fBreed sBreed starve nThreads c workers
          world emptyWorld).1 ≤
      countOccupied wwidth wheight world +
        (Chronon wwidth wheight fBreed sBreed starve nThreads c workers
          world emptyWorld).2.2 := by
  rcases Nat.eq_zero_or_pos wheight with h0 | h1
  · subst h0
    simp [countOccupied]
  · have hn := coerceWorkers_pos nThreads wheight h1
    have hnr : coerceWorkers nThreads wheight *
        (wheight / coerceWorkers nThreads wheight) ≤ wheight := by
      rw [Nat.mul_comm]
      exact Nat.div_mul_le_self wheight _
    exact runWorkers_total_count wwidth wheight fBreed sBreed starve c workers world
      (coerceWorkers nThreads wheight) (wheight / coerceWorkers nThreads wheight)
      hn hnr
